import Mathlib

/-
Verification of the ShapeOut2 pipeline core (src/shapeout2/pipeline/core.py).

The embedding below translates the `Pipeline` class and its operations into
pure Lean functions.  Python dictionaries (insertion ordered) are modelled as
association lists, Python lists as Lean lists, and in-place mutation as
explicit state passing: every operation takes the pipeline record and returns
the updated record (plus, for fallible operations, an `Option String` naming
the Python exception class that would be raised; the returned record is the
object state at the moment the exception propagates, since Python mutates the
object in place before raising).

The dclab dataset objects held in the matrix are modelled by `Cell`: a cell is
either a base dataset (`dclab.new_dataset(path, identifier)`) or a hierarchy
child (`RTDC_Hierarchy(hparent=..., apply_filter=False)`).  Rows are built so
that every hierarchy child has the cell immediately before it in the row as
its parent, which is exactly how `construct_matrix` builds rows, so the
parent link is represented positionally.  Each cell carries the mutable
filtering configuration that `get_dataset` writes into it.
-/

set_option linter.unusedVariables false

namespace SO2

/-- Kind of a matrix cell: a base dataset opened from a path with the slot
identifier, or a hierarchy child whose parent is the previous cell in the
row. -/
inductive CellKind where
  | base (path : String) (identifier : String)
  | child
deriving DecidableEq, Repr

/-- Filtering configuration stored on a dataset cell.  A freshly constructed
cell is `initial`; `get_dataset` either pushes a filter configuration onto the
cell (`live`) or sets the `enable filters` key to `False` (`disabled`). -/
inductive FilteringCfg where
  | initial
  | live (cfg : Nat)
  | disabled
deriving DecidableEq, Repr

/-- One dataset in the analysis matrix. -/
structure Cell where
  kind : CellKind
  filtering : FilteringCfg
deriving DecidableEq, Repr

instance : Inhabited Cell := ⟨⟨CellKind.child, FilteringCfg.initial⟩⟩

/-- Modelled from the spec: the `Filter` class lives in
src/shapeout2/pipeline/filter.py which is not part of the sources; per the
spec a filter is an identifier together with a parameter configuration
(range constraints, polygon constraints, flags), which we keep as an opaque
`config` payload. -/
structure Filter where
  identifier : String
  config : Nat
deriving DecidableEq, Repr

instance : Inhabited Filter := ⟨⟨"", 0⟩⟩

/-- Modelled from the spec: the `Plot` class (pipeline/plot.py, not in the
sources) is an identifier plus display configuration. -/
structure Plot where
  identifier : String
  config : Nat
deriving DecidableEq, Repr

/-- Modelled from the spec: the `Dataslot` class (pipeline/dataslot.py, not in
the sources) is an identifier, a source path, a display color and a dataset
level configuration payload. -/
structure Slot where
  identifier : String
  path : String
  color : String
  config : Nat
deriving DecidableEq, Repr

instance : Inhabited Slot := ⟨⟨"", "", "", 0⟩⟩

/-- The element enablement matrix `element_states`: for each slot identifier,
an insertion ordered mapping from filter or plot identifiers to booleans. -/
abbrev ES := List (String × List (String × Bool))

/-- Serialized pipeline state as consumed by `__setstate__`.  The per-entity
state dictionaries are modelled by the entity records themselves (the
identifier registries of the missing modules reconstruct an entity from its
state, so a state blob carries the same information as the entity). -/
structure PipelineState where
  elements : ES
  filters : List Filter
  filters_used : List String
  plots : List Plot
  slots : List Slot
  slots_used : List String
deriving DecidableEq

/-- The `Pipeline` object: entity lists, used lists, enablement matrix, the
analysis matrix together with its cached fingerprint data, and the previously
applied serialized state. -/
structure Pipeline where
  filters : List Filter
  filters_used : List String
  plots : List Plot
  slots : List Slot
  slots_used : List String
  element_states : ES
  matrix : List (List Cell)
  matrix_hash : Option (List String × List String)
  matrix_slots : List String
  matrix_filters : List String
  old_state : Option PipelineState
deriving DecidableEq

instance : Inhabited Pipeline :=
  ⟨⟨[], [], [], [], [], [], [], none, [], [], none⟩⟩

/-- Pipeline.__init__ with no state argument: `reset()` plus empty matrix and
cache fields.  The Python sentinel hash value, the string "None", is modelled
as `none` (it never equals a computed fingerprint). -/
def initPipeline : Pipeline :=
  { filters := [], filters_used := [], plots := [], slots := [],
    slots_used := [], element_states := [], matrix := [],
    matrix_hash := none, matrix_slots := [], matrix_filters := [],
    old_state := none }

/-- Python `list.insert(index, a)`: inserts before position `index`, clamping
an index beyond the end to an append. -/
def pyInsert (l : List α) (index : Nat) (a : α) : List α :=
  l.take index ++ a :: l.drop index

/-- Python dict assignment `d[k] = v` on an association list: updates the
first entry with key `k` in place, otherwise appends a new entry. -/
def setA (l : List (String × Bool)) (k : String) (v : Bool) :
    List (String × Bool) :=
  match l with
  | [] => [(k, v)]
  | (k2, v2) :: rest =>
      if k2 = k then (k, v) :: rest else (k2, v2) :: setA rest k v

/-- Python dict `pop`: removes the first entry with key `k` if present. -/
def eraseA (l : List (String × Bool)) (k : String) : List (String × Bool) :=
  match l with
  | [] => []
  | (k2, v2) :: rest =>
      if k2 = k then rest else (k2, v2) :: eraseA rest k

/-- Assignment `element_states[sid] = inner`: replaces the whole inner
mapping of slot `sid` (or appends it). -/
def setOuter (es : ES) (sid : String) (inner : List (String × Bool)) : ES :=
  match es with
  | [] => [(sid, inner)]
  | (k, old) :: rest =>
      if k = sid then (sid, inner) :: rest else (k, old) :: setOuter rest sid inner

/-- Assignment `element_states[sid][fid] = v`.  When `sid` is not a key the
Python code would raise `KeyError`; the pipeline operations only perform this
assignment for slot identifiers that are keys (every added slot gets an inner
mapping), so the missing-key case is unreachable and is modelled as a no-op. -/
def setInner (es : ES) (sid fid : String) (v : Bool) : ES :=
  match es with
  | [] => []
  | (k, inner) :: rest =>
      if k = sid then (k, setA inner fid v) :: rest
      else (k, inner) :: setInner rest sid fid v

/-- Lookup `element_states[sid][fid]` as an option. -/
def esLookup (es : ES) (sid fid : String) : Option Bool :=
  (List.lookup sid es).bind (fun inner => List.lookup fid inner)

def filter_ids (p : Pipeline) : List String :=
  p.filters.map Filter.identifier

def plot_ids (p : Pipeline) : List String :=
  p.plots.map Plot.identifier

def slot_ids (p : Pipeline) : List String :=
  p.slots.map Slot.identifier

def num_filters (p : Pipeline) : Nat := p.filters.length

/-- Pipeline.num_plots as implemented: it returns the length of the filter
list, not of the plot list. -/
def num_plots (p : Pipeline) : Nat := p.filters.length

def num_slots (p : Pipeline) : Nat := p.slots.length

/-- Pipeline.add_filter with a filter instance (the dict branch goes through
the registry of the missing filter module and produces a filter with the same
state, so it is covered by passing the resulting filter).  Inserts the filter,
sets the enablement entry of every current slot for this filter to `False`,
and appends the filter identifier to `filters_used`. -/
def add_filter (p : Pipeline) (filt : Filter) (index : Option Nat) : Pipeline :=
  let index := index.getD p.filters.length
  let filters2 := pyInsert p.filters index filt
  let fid := filt.identifier
  let es := (slot_ids p).foldl (fun es sid => setInner es sid fid false)
    p.element_states
  { p with filters := filters2, element_states := es,
           filters_used := p.filters_used ++ [fid] }

/-- Pipeline.add_plot: inserts the plot and sets the enablement entry of every
current slot for this plot to `False`.  Nothing is appended to any used
list. -/
def add_plot (p : Pipeline) (plot : Plot) (index : Option Nat) : Pipeline :=
  let index := index.getD p.plots.length
  let plots2 := pyInsert p.plots index plot
  let pid := plot.identifier
  let es := (slot_ids p).foldl (fun es sid => setInner es sid pid false)
    p.element_states
  { p with plots := plots2, element_states := es }

/-- Pipeline.add_slot with a slot instance.  `featuresOf` models
`meta_tool.get_rtdc_features` (module not in the sources): the scalar feature
names exposed by the measurement at a path.  Note the order of operations
taken from the source: the slot is inserted, its enablement entries are
initialized for every existing filter (only filters, not plots), and the slot
identifier is appended to `slots_used` BEFORE the feature compatibility check;
when the check fails a `ValueError` is raised, leaving the mutations in
place.  The feature check compares the features of `self.slots[0]` (after
insertion) with those of the new slot. -/
def add_slot (featuresOf : String → List String) (p : Pipeline) (slot : Slot)
    (index : Option Nat) : Pipeline × Option String :=
  let index := index.getD p.slots.length
  let slots2 := pyInsert p.slots index slot
  let sid := slot.identifier
  let inner := (filter_ids p).map (fun fid => (fid, false))
  let es := setOuter p.element_states sid inner
  let p2 := { p with slots := slots2, element_states := es,
                     slots_used := p.slots_used ++ [sid] }
  let f0 := featuresOf ((p2.slots.getD 0 default).path)
  let fi := featuresOf slot.path
  if f0 ≠ fi then (p2, some "ValueError") else (p2, none)

/-- A freshly built matrix row for a slot: the base dataset followed by one
hierarchy child per filter, each child having the previous cell as parent
(strategy 3 inner loop of `construct_matrix`, also used for new rows in
strategy 1). -/
def freshRow (sl : Slot) (filters : List Filter) : List Cell :=
  { kind := CellKind.base sl.path sl.identifier,
    filtering := FilteringCfg.initial } ::
    filters.map (fun _ => { kind := CellKind.child,
                            filtering := FilteringCfg.initial })

/-- Identifier of `row[0]` when it is a base dataset. -/
def rowHeadId (row : List Cell) : Option String :=
  match row with
  | { kind := CellKind.base _ sid, .. } :: _ => some sid
  | _ => none

/-- Source path of `row[0]` when it is a base dataset. -/
def rowHeadPath (row : List Cell) : Option String :=
  match row with
  | { kind := CellKind.base pth _, .. } :: _ => some pth
  | _ => none

/-- Strategy 2 of `construct_matrix`: the loop `for ii, sl in
enumerate(self.slots)` appends `k` hierarchy children to row `ii` of the
existing matrix.  Rows beyond the number of slots are left untouched (in the
source a matrix shorter than the slot list would raise `IndexError`; the
cached-matrix invariant maintained by `construct_matrix` makes that
unreachable). -/
def extendRows (k : Nat) : Nat → List (List Cell) → List (List Cell)
  | 0, m => m
  | _ + 1, [] => []
  | n + 1, row :: rest =>
      (row ++ List.replicate k { kind := CellKind.child,
                                 filtering := FilteringCfg.initial })
        :: extendRows k n rest

/-- Strategy 3 of `construct_matrix`: a full rebuild of every row from the
current slots and filters. -/
def full_matrix (p : Pipeline) : List (List Cell) :=
  p.slots.map (fun sl => freshRow sl p.filters)

/-- Pipeline.construct_matrix.  `util.hashobj` (module not in the sources) is
modelled from the spec as an injective structural fingerprint of the pair of
identifier lists.  If the cached fingerprint differs from the recomputed one,
the matrix is rebuilt by the cheapest applicable of three strategies and the
fingerprint data is re-cached; otherwise nothing happens. -/
def construct_matrix (p : Pipeline) : Pipeline :=
  let matrix_filters := filter_ids p
  let matrix_slots := slot_ids p
  let matrix_hash : Option (List String × List String) :=
    some (matrix_slots, matrix_filters)
  let n_filt_then := p.matrix_filters.length
  if p.matrix_hash ≠ matrix_hash then
    let matrix :=
      if p.matrix_filters = matrix_filters then
        -- only a slot was added/removed: reuse the first old row whose base
        -- identifier matches, else build a fresh row
        p.slots.map (fun sl =>
          match p.matrix.find?
              (fun row => rowHeadId row = some sl.identifier) with
          | some row => row
          | none => freshRow sl p.filters)
      else if p.matrix_slots = matrix_slots ∧
          p.matrix_filters = matrix_filters.take n_filt_then then
        -- only a filter was added: extend every row in place
        extendRows (p.filters.length - n_filt_then) p.slots.length p.matrix
      else
        -- everything changed
        full_matrix p
    { p with matrix := matrix, matrix_hash := matrix_hash,
             matrix_slots := matrix_slots, matrix_filters := matrix_filters }
  else
    p

/-- The filtering configuration `get_dataset` writes onto chain cell `ii`:
when the enablement entry of this slot for filter `ii` is true and the filter
identifier is in `filters_used`, the filter parameter configuration is pushed
onto the cell (`filt.update_dataset(row[ii])`, modelled from the spec since
filter.py is not in the sources); otherwise the cell filtering is disabled
(`row[ii].config["filtering"]["enable filters"] = False`).  A missing
enablement entry would raise `KeyError` in the source; it is modelled as
`False` and the theorems that depend on this step assume the entry exists. -/
def cellFilterDecision (p : Pipeline) (fstates : List (String × Bool))
    (ii : Nat) : FilteringCfg :=
  let filt := p.filters.getD ii default
  if (List.lookup filt.identifier fstates).getD false = true ∧
      filt.identifier ∈ p.filters_used then
    FilteringCfg.live filt.config
  else
    FilteringCfg.disabled

/-- The loop `for ii in range(filt_index + 1)` of `get_dataset`: rewrites the
filtering configuration of the cells with index at most `fi`, visiting the
stages in ascending index order; later cells are untouched.  The first
argument of the recursion is the index of the head cell. -/
def configureRow (p : Pipeline) (fstates : List (String × Bool)) (fi : Nat) :
    Nat → List Cell → List Cell
  | _, [] => []
  | ii, c :: rest =>
      (if ii ≤ fi then { c with filtering := cellFilterDecision p fstates ii }
       else c) :: configureRow p fstates fi (ii + 1) rest

/-- The value returned by `get_dataset`: the chain of cells from the base
dataset up to `row[filt_index]` (the ancestors of the returned dataset
together with the dataset itself, after the filtering configuration pass),
the slot configuration pushed onto the returned dataset by
`slot.update_dataset(dsend)` (modelled from the spec, dataslot.py is not in
the sources), and whether `dsend.apply_filter()` was triggered. -/
structure View where
  chain : List Cell
  slotConfig : Nat
  applied : Bool
deriving DecidableEq, Repr

instance : Inhabited View := ⟨⟨[], 0, false⟩⟩

/-- Pipeline.get_dataset: ensures the matrix is current, configures the
filtering of every chain cell up to `filt_index`, stores the reconfigured row
back into the matrix, and returns the view at `row[filt_index]`.  Negative
Python indices do not arise: every caller passes a filter index, and for the
`num_filters = 0` case (`filt_index = -1` in `get_plot_datasets`) the row
consists of the base cell only, so `row[-1] = row[0]` and the `Nat`
truncation `0 - 1 = 0` selects the same cell. -/
def get_dataset (p : Pipeline) (slot_index filt_index : Nat)
    (apply_filter : Bool) : Pipeline × View :=
  let q := construct_matrix p
  let row := q.matrix.getD slot_index []
  let slot := q.slots.getD slot_index default
  let fstates := (List.lookup slot.identifier q.element_states).getD []
  let row2 := configureRow q fstates filt_index 0 row
  let view : View := { chain := row2.take (filt_index + 1),
                       slotConfig := slot.config,
                       applied := apply_filter }
  ({ q with matrix := q.matrix.set slot_index row2 }, view)

/-- Insertion of a string into a sorted list, ascending. -/
def insertSorted (a : String) : List String → List String
  | [] => [a]
  | b :: rest => if a ≤ b then a :: b :: rest else b :: insertSorted a rest

/-- Ascending sort of a list of strings, modelling Python `sorted`. -/
def sortStr (l : List String) : List String := l.foldr insertSorted []

/-- Feature names of a returned dataset view: the features exposed by the
underlying measurement, a function of the base path of the chain. -/
def viewFeatures (featuresOf : String → List String) (v : View) :
    List String :=
  featuresOf ((rowHeadPath v.chain).getD "")

/-- Pipeline.get_features: starting from the full dclab feature name list
(`allFeatures`), intersect with the features of the unfiltered view of every
slot, sorted.  The `label_sort` branch only re-sorts by external display
labels and is not modelled.  The threading of the pipeline through the
`get_dataset` calls is kept because each call stores the reconfigured row
back into the matrix. -/
def get_features (allFeatures : List String)
    (featuresOf : String → List String) (p : Pipeline) :
    Pipeline × List String :=
  (List.range (num_slots p)).foldl
    (fun acc si =>
      let q2v := get_dataset acc.1 si 0 false
      let dsf := viewFeatures featuresOf q2v.2
      (q2v.1, sortStr (((acc.2.filter (fun f => f ∈ dsf))).dedup)))
    (p, allFeatures)

/-- Minimum of a list of integers. -/
def foldMin : List Int → Option Int
  | [] => none
  | x :: rest =>
      match foldMin rest with
      | none => some x
      | some y => some (min x y)

/-- Maximum of a list of integers. -/
def foldMax : List Int → Option Int
  | [] => none
  | x :: rest =>
      match foldMax rest with
      | none => some x
      | some y => some (max x y)

def omin : Option Int → Option Int → Option Int
  | none, b => b
  | some a, none => some a
  | some a, some b => some (min a b)

def omax : Option Int → Option Int → Option Int
  | none, b => b
  | some a, none => some a
  | some a, some b => some (max a b)

/-- Pipeline.get_min_max: global extrema of one feature over the raw view of
every slot.  `dataOf path feat` models the numeric column of the measurement
at a path (the dataset library is external); the float infinities of the
source are modelled by `Option` with `none` as the initial value. -/
def get_min_max (dataOf : String → String → List Int) (p : Pipeline)
    (feat : String) : Pipeline × (Option Int × Option Int) :=
  (List.range (num_slots p)).foldl
    (fun acc si =>
      let q2v := get_dataset acc.1 si 0 false
      let data := dataOf ((rowHeadPath q2v.2.chain).getD "") feat
      (q2v.1, (omin acc.2.1 (foldMin data), omax acc.2.2 (foldMax data))))
    (p, (none, none))

/-- Pipeline.get_plot_datasets: for every slot, in slot order, whose
enablement entry for the plot is true and whose identifier is in
`slots_used`, return the view obtained by `get_dataset` at
`filt_index = num_filters - 1` with `apply_filter=True` together with the
slot state snapshot.  A missing enablement entry would raise `KeyError` in
the source and is modelled as `False`. -/
def get_plot_datasets (p : Pipeline) (plot_id : String) :
    Pipeline × List (View × Slot) :=
  let fi := num_filters p - 1
  (List.range p.slots.length).foldl
    (fun acc si =>
      let slot := acc.1.slots.getD si default
      if esLookup acc.1.element_states slot.identifier plot_id = some true ∧
          slot.identifier ∈ acc.1.slots_used then
        let q2v := get_dataset acc.1 si fi true
        (q2v.1, acc.2 ++ [(q2v.2, slot)])
      else acc)
    (p, [])

/-- Pipeline.remove_filter: finds the filter by identifier (`list.index`
raises `ValueError` when absent), pops it, removes the identifier from
`filters_used` when present, and prunes the corresponding enablement entry of
every slot. -/
def remove_filter (p : Pipeline) (filt_id : String) :
    Pipeline × Option String :=
  match p.filters.findIdx? (fun f => f.identifier = filt_id) with
  | none => (p, some "ValueError")
  | some index =>
      let p2 := { p with filters := p.filters.eraseIdx index }
      let p3 :=
        if filt_id ∈ p2.filters_used then
          { p2 with filters_used := p2.filters_used.erase filt_id }
        else p2
      ({ p3 with element_states :=
          p3.element_states.map (fun e => (e.1, eraseA e.2 filt_id)) }, none)

/-- Pipeline.remove_plot: symmetric to `remove_filter`, without a used
list. -/
def remove_plot (p : Pipeline) (plot_id : String) :
    Pipeline × Option String :=
  match p.plots.findIdx? (fun pl => pl.identifier = plot_id) with
  | none => (p, some "ValueError")
  | some index =>
      let p2 := { p with plots := p.plots.eraseIdx index }
      ({ p2 with element_states :=
          p2.element_states.map (fun e => (e.1, eraseA e.2 plot_id)) }, none)

/-- Pipeline.remove_slot as implemented in the source: the body was copied
from `remove_filter` without adjustment.  It looks the slot identifier up in
the FILTER identifier list (`self.filter_ids.index(slot_id)`), which raises
`ValueError` whenever the slot identifier is not a filter identifier; if a
filter with that identifier exists the filter (not the slot) is popped, and
the following statement reads `self.plots_used`, an attribute that is never
defined on `Pipeline`, raising `AttributeError` unconditionally.  The slot
list, the slots_used list and the enablement matrix are never touched. -/
def remove_slot (p : Pipeline) (slot_id : String) : Pipeline × Option String :=
  match p.filters.findIdx? (fun f => f.identifier = slot_id) with
  | none => (p, some "ValueError")
  | some index =>
      ({ p with filters := p.filters.eraseIdx index }, some "AttributeError")

/-- Pipeline.reset: clears the entity lists, the used lists and the
enablement matrix.  The matrix and its cached fingerprint data are NOT
cleared. -/
def reset (p : Pipeline) : Pipeline :=
  { p with filters := [], filters_used := [], plots := [], slots := [],
           slots_used := [], element_states := [] }

/-- Replay of `add_slot` over a list of slot states inside `__setstate__`;
an exception raised by `add_slot` propagates, leaving the state mutated so
far. -/
def addSlots (featuresOf : String → List String) (p : Pipeline) :
    List Slot → Pipeline × Option String
  | [] => (p, none)
  | s :: rest =>
      match add_slot featuresOf p s none with
      | (q, some e) => (q, some e)
      | (q, none) => addSlots featuresOf q rest

/-- Pipeline.__setstate__: a no-op when the incoming state equals the last
applied state; otherwise records the state, resets, replays `add_filter` for
every filter state, assigns `filters_used`, replays `add_plot`, replays
`add_slot` (which may raise), then assigns `slots_used` and finally the
enablement matrix. -/
def setstate (featuresOf : String → List String) (p : Pipeline)
    (s : PipelineState) : Pipeline × Option String :=
  if p.old_state = some s then (p, none)
  else
    let p1 := reset { p with old_state := some s }
    let p2 := s.filters.foldl (fun q f => add_filter q f none) p1
    let p3 := { p2 with filters_used := s.filters_used }
    let p4 := s.plots.foldl (fun q pl => add_plot q pl none) p3
    match addSlots featuresOf p4 s.slots with
    | (p5, some e) => (p5, some e)
    | (p5, none) =>
        ({ p5 with slots_used := s.slots_used,
                   element_states := s.elements }, none)

/-!  Invariants of the cached matrix. -/

/-- Kinds of the cells of a row, forgetting the mutable filtering
configuration. -/
def rowKinds (row : List Cell) : List CellKind := row.map Cell.kind

/-- A cached matrix row is well formed for slot identifier `sid`: its head is
a base dataset carrying `sid`, it is followed by one hierarchy child per
cached filter, and every current slot with identifier `sid` has the path the
base dataset was opened from. -/
def RowMatches (p : Pipeline) (row : List Cell) (sid : String) : Prop :=
  rowHeadId row = some sid ∧
  (rowKinds row).tail = List.replicate p.matrix_filters.length CellKind.child ∧
  ∀ sl ∈ p.slots, sl.identifier = sid → rowHeadPath row = some sl.path

instance (p : Pipeline) (row : List Cell) (sid : String) :
    Decidable (RowMatches p row sid) := by
  unfold RowMatches; infer_instance

/-- Well-formedness of the cached matrix data: the cached fingerprint is
either still the initial sentinel or the fingerprint of the cached identifier
lists, the matrix has one row per cached slot identifier, and each row is
well formed for its identifier.  `construct_matrix` establishes this state
and the add operations do not touch the cached fields. -/
def matrixWF (p : Pipeline) : Prop :=
  (p.matrix_hash = none ∨
    p.matrix_hash = some (p.matrix_slots, p.matrix_filters)) ∧
  p.matrix.length = p.matrix_slots.length ∧
  ∀ pr ∈ List.zip p.matrix p.matrix_slots, RowMatches p pr.1 pr.2

instance (p : Pipeline) : Decidable (matrixWF p) := by
  unfold matrixWF; infer_instance

/-!  Basic lemmas about `construct_matrix`. -/

theorem construct_matrix_filters (p : Pipeline) :
    (construct_matrix p).filters = p.filters := by
  unfold construct_matrix; dsimp only; split <;> rfl

theorem construct_matrix_slots (p : Pipeline) :
    (construct_matrix p).slots = p.slots := by
  unfold construct_matrix; dsimp only; split <;> rfl

theorem construct_matrix_plots (p : Pipeline) :
    (construct_matrix p).plots = p.plots := by
  unfold construct_matrix; dsimp only; split <;> rfl

theorem construct_matrix_element_states (p : Pipeline) :
    (construct_matrix p).element_states = p.element_states := by
  unfold construct_matrix; dsimp only; split <;> rfl

theorem construct_matrix_filters_used (p : Pipeline) :
    (construct_matrix p).filters_used = p.filters_used := by
  unfold construct_matrix; dsimp only; split <;> rfl

theorem construct_matrix_slots_used (p : Pipeline) :
    (construct_matrix p).slots_used = p.slots_used := by
  unfold construct_matrix; dsimp only; split <;> rfl

theorem construct_matrix_old_state (p : Pipeline) :
    (construct_matrix p).old_state = p.old_state := by
  unfold construct_matrix; dsimp only; split <;> rfl

/-- After `construct_matrix` the cached fingerprint is the fingerprint of the
current identifier lists, whether or not a rebuild happened. -/
theorem construct_matrix_hash (p : Pipeline) :
    (construct_matrix p).matrix_hash = some (slot_ids p, filter_ids p) := by
  unfold construct_matrix; dsimp only; split
  · rfl
  · next h => exact not_not.mp h

/-- When the cached fingerprint already equals the fingerprint of the current
identifier lists, `construct_matrix` does nothing at all. -/
theorem construct_matrix_noop (p : Pipeline)
    (h : p.matrix_hash = some (slot_ids p, filter_ids p)) :
    construct_matrix p = p := by
  unfold construct_matrix; dsimp only
  rw [if_neg]; exact not_not.mpr h

/-- C3: `construct_matrix` recomputes the fingerprint from the current
ordered slot and filter identifier lists and rebuilds only when it differs
from the cached one.  First conjunct: a second call right after a call
performs no rebuild work and returns the pipeline unchanged, so every cell
keeps its identity.  Second conjunct: any pipeline `p2` that agrees with the
constructed pipeline on the two identifier lists and on the cached
fingerprint — in particular one that differs only in filter parameters,
enablement entries, used lists or slot configuration — is returned unchanged
by `construct_matrix`, so such changes never trigger a rebuild. -/
theorem construct_matrix_fingerprint_only (p p2 : Pipeline)
    (hs : slot_ids p2 = slot_ids p) (hf : filter_ids p2 = filter_ids p)
    (hh : p2.matrix_hash = (construct_matrix p).matrix_hash) :
    construct_matrix (construct_matrix p) = construct_matrix p ∧
    construct_matrix p2 = p2 := by
  constructor
  · apply construct_matrix_noop
    rw [construct_matrix_hash]
    unfold slot_ids filter_ids
    rw [construct_matrix_slots, construct_matrix_filters]
  · apply construct_matrix_noop
    rw [hh, construct_matrix_hash, hs, hf]

/-!  Concrete fixtures used by witnesses and counterexamples. -/

/-- Feature oracle on which every path exposes the same two features. -/
def foAB : String → List String := fun _ => ["area", "bright"]

def slotS1 : Slot := ⟨"slot-1", "path-1", "blue", 11⟩

def slotS2 : Slot := ⟨"slot-2", "path-2", "red", 22⟩

def filtF1 : Filter := ⟨"filt-1", 7⟩

def filtF2 : Filter := ⟨"filt-2", 8⟩

def plotG1 : Plot := ⟨"plot-1", 3⟩

/-- A pipeline with one filter and one slot. -/
def pOneOne : Pipeline :=
  (add_slot foAB (add_filter initPipeline filtF1 none) slotS1 none).1

/-- The one-filter one-slot pipeline with its matrix constructed. -/
def pOneOneC : Pipeline := construct_matrix pOneOne

/-- The constructed one-filter one-slot pipeline with the filter parameter
value and the enablement entry changed but the identifier lists and the
cached fingerprint kept. -/
def pTweaked : Pipeline :=
  { pOneOneC with filters := [⟨"filt-1", 99⟩]
                  element_states := [("slot-1", [("filt-1", true)])] }

theorem construct_matrix_fingerprint_only_witness :
    slot_ids pTweaked = slot_ids pOneOne ∧
    filter_ids pTweaked = filter_ids pOneOne ∧
    pTweaked.matrix_hash = (construct_matrix pOneOne).matrix_hash ∧
    construct_matrix (construct_matrix pOneOne) = construct_matrix pOneOne ∧
    construct_matrix pTweaked = pTweaked := by
  refine ⟨by decide, by decide, by decide, ?_, ?_⟩
  · exact (construct_matrix_fingerprint_only pOneOne pTweaked
      (by decide) (by decide) (by decide)).1
  · exact (construct_matrix_fingerprint_only pOneOne pTweaked
      (by decide) (by decide) (by decide)).2

/-- C10: the public `num_plots` property returns the number of filters, and
it agrees with the actual plot list length exactly when the filter count and
the plot count coincide; the second and third conjuncts exhibit a pipeline
with one plot and no filters on which `num_plots` is 0 while the plot list
has length 1. -/
theorem num_plots_is_num_filters (p : Pipeline) :
    num_plots p = num_filters p ∧
    (num_plots p = p.plots.length ↔ num_filters p = p.plots.length) ∧
    num_plots (add_plot initPipeline plotG1 none) = 0 ∧
    (add_plot initPipeline plotG1 none).plots.length = 1 := by
  exact ⟨rfl, Iff.rfl, by decide, by decide⟩

theorem num_plots_is_num_filters_witness :
    num_plots pOneOne = num_filters pOneOne ∧
    (num_plots pOneOne = pOneOne.plots.length ↔
      num_filters pOneOne = pOneOne.plots.length) ∧
    num_plots (add_plot initPipeline plotG1 none) = 0 ∧
    (add_plot initPipeline plotG1 none).plots.length = 1 :=
  num_plots_is_num_filters pOneOne

/-- A pipeline with a single slot named slot-1 and no filters. -/
def pSlotOnly : Pipeline := (add_slot foAB initPipeline slotS1 none).1

/-- C7: `remove_slot` as implemented never removes a slot.  On a pipeline
that contains the slot slot-1 (and no filter with that identifier), the call
raises `ValueError` from `self.filter_ids.index(slot_id)` and leaves the
pipeline unchanged: the slot is still present, still in `slots_used`, and its
enablement entries are still there. -/
theorem remove_slot_never_removes :
    remove_slot pSlotOnly "slot-1" = (pSlotOnly, some "ValueError") ∧
    "slot-1" ∈ slot_ids (remove_slot pSlotOnly "slot-1").1 ∧
    "slot-1" ∈ (remove_slot pSlotOnly "slot-1").1.slots_used ∧
    (List.lookup "slot-1"
      (remove_slot pSlotOnly "slot-1").1.element_states).isSome := by
  decide

/-- Feature oracle for the incompatibility fixtures: path-1 exposes two
features, every other path exposes one. -/
def foMixed : String → List String := fun pth =>
  if pth = "path-1" then ["area", "bright"] else ["area"]

/-- One-slot pipeline over the mixed feature oracle. -/
def pMixed : Pipeline := (add_slot foMixed initPipeline slotS1 none).1

/-- C5 counterexample: adding a slot whose exposed feature set differs does
raise (`ValueError`, the source defines no `IncompatibleSourceError`), but
the pipeline state is NOT unchanged: the slot list has grown from one to two
entries, the new identifier is in `slots_used`, and its enablement entries
were initialized — the mutations happen before the feature check. -/
theorem add_slot_incompatible_commits :
    (add_slot foMixed pMixed slotS2 none).2 = some "ValueError" ∧
    pMixed.slots.length = 1 ∧
    (add_slot foMixed pMixed slotS2 none).1.slots.length = 2 ∧
    "slot-2" ∈ (add_slot foMixed pMixed slotS2 none).1.slots_used ∧
    (List.lookup "slot-2"
      (add_slot foMixed pMixed slotS2 none).1.element_states).isSome := by
  decide

/-- C5 amended: when the pipeline is nonempty and the appended slot exposes a
feature set different from that of the first slot, `add_slot` raises
`ValueError` and leaves the slot fully inserted: the slot list, the used
slot list and the enablement matrix all contain the partially committed
entry. -/
theorem add_slot_incompatible_partial_commit
    (featuresOf : String → List String) (p : Pipeline) (slot : Slot)
    (hne : p.slots ≠ [])
    (hfeat : featuresOf ((p.slots.getD 0 default).path) ≠
      featuresOf slot.path) :
    add_slot featuresOf p slot none =
      ({ p with slots := p.slots ++ [slot],
                element_states := setOuter p.element_states slot.identifier
                  ((filter_ids p).map (fun fid => (fid, false))),
                slots_used := p.slots_used ++ [slot.identifier] },
       some "ValueError") := by
  unfold add_slot
  have hins : pyInsert p.slots p.slots.length slot = p.slots ++ [slot] := by
    simp [pyInsert]
  dsimp only [Option.getD]
  rw [hins]
  have hget : (p.slots ++ [slot]).getD 0 default = p.slots.getD 0 default := by
    rcases List.exists_cons_of_ne_nil hne with ⟨a, l, hal⟩
    rw [hal]
    rfl
  rw [if_pos]
  rw [hget]
  exact hfeat

theorem add_slot_incompatible_partial_commit_witness :
    pMixed.slots ≠ [] ∧
    foMixed ((pMixed.slots.getD 0 default).path) ≠ foMixed slotS2.path ∧
    add_slot foMixed pMixed slotS2 none =
      ({ pMixed with slots := pMixed.slots ++ [slotS2]
                     element_states := setOuter pMixed.element_states
                       slotS2.identifier
                       ((filter_ids pMixed).map (fun fid => (fid, false)))
                     slots_used := pMixed.slots_used ++ [slotS2.identifier] },
       some "ValueError") :=
  ⟨by decide, by decide,
    add_slot_incompatible_partial_commit foMixed pMixed slotS2
      (by decide) (by decide)⟩

/-- Pipeline obtained by adding a plot first and a slot afterwards. -/
def pPlotThenSlot : Pipeline :=
  (add_slot foAB (add_plot initPipeline plotG1 none) slotS1 none).1

/-- C6 counterexample: `add_slot` initializes enablement entries only against
the existing filters, not against the existing plots.  After adding plot
plot-1 and then slot slot-1, both are present but the (slot-1, plot-1)
enablement entry does not exist. -/
theorem add_slot_misses_plot_entries :
    "slot-1" ∈ slot_ids pPlotThenSlot ∧
    "plot-1" ∈ plot_ids pPlotThenSlot ∧
    esLookup pPlotThenSlot.element_states "slot-1" "plot-1" = none := by
  decide

/-!  C2: the appended-filters rebuild strategy. -/

/-- When the matrix has at least as many rows as there are slots (the cached
matrix invariant gives equality), strategy 2 extends every row by `k` fresh
hierarchy children. -/
theorem extendRows_all (k : Nat) :
    ∀ (m : List (List Cell)) (n : Nat), m.length ≤ n →
      extendRows k n m = m.map (fun row => row ++
        List.replicate k { kind := CellKind.child,
                           filtering := FilteringCfg.initial }) := by
  intro m
  induction m with
  | nil => intro n _; cases n <;> rfl
  | cons row rest ih =>
      intro n hn
      cases n with
      | zero => simp at hn
      | succ n2 =>
          have hrest : rest.length ≤ n2 := by
            simpa [Nat.succ_le_succ_iff] using hn
          simp only [extendRows, List.map_cons, ih n2 hrest]

/-- C2: if the slot identifier list is unchanged and the new filter
identifier list extends the cached one by a nonempty suffix, then
`construct_matrix` keeps every existing cell of every row unchanged (the row
prefixes are reused verbatim, preserving object identity in the source,
where the rows are extended in place) and appends exactly one fresh hierarchy
child per appended filter to the end of each row, i.e. on top of the
previous terminal cell of that row. -/
theorem construct_matrix_appended_filters (p : Pipeline)
    (hwf : matrixWF p)
    (hs : p.matrix_slots = slot_ids p)
    (hf : p.matrix_filters = (filter_ids p).take p.matrix_filters.length)
    (hlt : p.matrix_filters.length < p.filters.length) :
    (construct_matrix p).matrix =
      p.matrix.map (fun row => row ++
        List.replicate (p.filters.length - p.matrix_filters.length)
          { kind := CellKind.child, filtering := FilteringCfg.initial }) := by
  have hlenf : (filter_ids p).length = p.filters.length := by
    simp [filter_ids]
  have hne2 : ¬p.matrix_filters = filter_ids p := by
    intro h
    rw [h, hlenf] at hlt
    exact Nat.lt_irrefl _ hlt
  have hhash : p.matrix_hash ≠ some (slot_ids p, filter_ids p) := by
    rcases hwf.1 with h0 | h0
    · rw [h0]; intro hc; cases hc
    · rw [h0]
      intro hc
      apply hne2
      have h2 : (p.matrix_slots, p.matrix_filters) =
          (slot_ids p, filter_ids p) := by
        injection hc
      exact congrArg Prod.snd h2
  unfold construct_matrix
  dsimp only
  rw [if_pos hhash]
  dsimp only
  rw [if_neg hne2, if_pos ⟨hs, hf⟩]
  apply extendRows_all
  have hml : p.matrix.length = p.slots.length := by
    rw [hwf.2.1, hs]
    simp [slot_ids]
  exact Nat.le_of_eq hml

/-- Pipeline with one slot and one filter, constructed, then a second filter
appended: the state on which strategy 2 fires. -/
def pAppended : Pipeline := add_filter pOneOneC filtF2 none

theorem construct_matrix_appended_filters_witness :
    matrixWF pAppended ∧
    pAppended.matrix_slots = slot_ids pAppended ∧
    pAppended.matrix_filters =
      (filter_ids pAppended).take pAppended.matrix_filters.length ∧
    pAppended.matrix_filters.length < pAppended.filters.length ∧
    (construct_matrix pAppended).matrix =
      pAppended.matrix.map (fun row => row ++
        List.replicate
          (pAppended.filters.length - pAppended.matrix_filters.length)
          { kind := CellKind.child, filtering := FilteringCfg.initial }) :=
  ⟨by decide, by decide, by decide, by decide,
    construct_matrix_appended_filters pAppended
      (by decide) (by decide) (by decide) (by decide)⟩

/-!  C4: the per-stage enablement gate of `get_dataset`. -/

/-- Element `j` of a `take n` prefix, for `j < n`. -/
theorem take_getD (l : List α) : ∀ (n j : Nat) (d : α), j < n →
    (l.take n).getD j d = l.getD j d := by
  induction l with
  | nil => intro n j d _; simp
  | cons a rest ih =>
      intro n j d hj
      cases n with
      | zero => cases hj
      | succ n2 =>
          cases j with
          | zero => rfl
          | succ j2 =>
              have hj2 : j2 < n2 := Nat.lt_of_succ_lt_succ hj
              simpa [List.take, List.getD] using ih n2 j2 d hj2

/-- The configuration pass rewrites cell `j` (counting from start index `st`)
with the filtering decision for stage `st + j`, for every cell up to the
requested filter index. -/
theorem configureRow_getD (p : Pipeline) (fs : List (String × Bool))
    (fi : Nat) :
    ∀ (row : List Cell) (st j : Nat), st + j ≤ fi → j < row.length →
      (configureRow p fs fi st row).getD j default =
        { kind := (row.getD j default).kind,
          filtering := cellFilterDecision p fs (st + j) } := by
  intro row
  induction row with
  | nil => intro st j _ hlt; cases hlt
  | cons c rest ih =>
      intro st j hle hlt
      cases j with
      | zero =>
          have hst : st ≤ fi := by simpa using hle
          simp [configureRow, if_pos hst, List.getD]
      | succ j2 =>
          have hle2 : (st + 1) + j2 ≤ fi := by omega
          have hlt2 : j2 < rest.length := by
            simpa [Nat.succ_lt_succ_iff] using hlt
          have h2 := ih (st + 1) j2 hle2 hlt2
          have harith : st + 1 + j2 = st + (j2 + 1) := by omega
          rw [harith] at h2
          simpa [configureRow, List.getD] using h2

/-- C4: `get_dataset` visits every filter stage `0..=filt_index` in ascending
index order and, for each stage `ii`, writes onto chain cell `ii` either the
live parameter configuration of filter `ii` — when the enablement entry of
this slot for that filter is true AND the filter identifier is in the used
list — or the disabled marker otherwise.  `hentry` restricts the statement to
states where every consulted enablement entry exists (a missing entry raises
`KeyError` in the source). -/
theorem get_dataset_enablement_gate (p : Pipeline) (si fi : Nat) (ap : Bool)
    (hrow : fi < ((construct_matrix p).matrix.getD si []).length)
    (hentry : ∀ ii, ii < fi + 1 →
      (List.lookup (p.filters.getD ii default).identifier
        ((List.lookup (p.slots.getD si default).identifier
          p.element_states).getD [])).isSome = true) :
    ∀ ii, ii < fi + 1 →
      (get_dataset p si fi ap).2.chain.getD ii default =
        { kind := (((construct_matrix p).matrix.getD si []).getD ii
            default).kind,
          filtering :=
            if (List.lookup (p.filters.getD ii default).identifier
                  ((List.lookup (p.slots.getD si default).identifier
                    p.element_states).getD [])).getD false = true ∧
                (p.filters.getD ii default).identifier ∈ p.filters_used
            then FilteringCfg.live (p.filters.getD ii default).config
            else FilteringCfg.disabled } := by
  intro ii hii
  have hile : 0 + ii ≤ fi := by omega
  have hilt : ii < ((construct_matrix p).matrix.getD si []).length :=
    Nat.lt_of_le_of_lt (by omega) hrow
  unfold get_dataset
  dsimp only
  rw [take_getD _ _ _ _ hii,
    configureRow_getD (construct_matrix p) _ fi _ 0 ii hile hilt]
  rw [Nat.zero_add]
  unfold cellFilterDecision
  dsimp only
  rw [construct_matrix_filters, construct_matrix_slots,
    construct_matrix_element_states, construct_matrix_filters_used]

/-- The C4 scenario pipeline: two slots with identical feature sets, one
range filter, enablement true for slot-1 and false for slot-2 (the
enablement toggle is written into `element_states` directly, as the GUI
does). -/
def pScenario : Pipeline :=
  { (add_slot foAB
      (add_slot foAB (add_filter initPipeline filtF1 none) slotS1 none).1
      slotS2 none).1 with
    element_states :=
      [("slot-1", [("filt-1", true)]), ("slot-2", [("filt-1", false)])] }

theorem get_dataset_enablement_gate_witness :
    0 < ((construct_matrix pScenario).matrix.getD 0 []).length ∧
    0 < ((construct_matrix pScenario).matrix.getD 1 []).length ∧
    ((get_dataset pScenario 0 0 true).2.chain.getD 0 default).filtering =
      FilteringCfg.live 7 ∧
    ((get_dataset pScenario 1 0 true).2.chain.getD 0 default).filtering =
      FilteringCfg.disabled := by
  refine ⟨by decide, by decide, ?_, ?_⟩
  · have h1 := get_dataset_enablement_gate pScenario 0 0 true
      (by decide) (by decide) 0 (by decide)
    rw [h1]
    decide
  · have h2 := get_dataset_enablement_gate pScenario 1 0 true
      (by decide) (by decide) 0 (by decide)
    rw [h2]
    decide

/-!  C8: `__setstate__` short-circuit and replay order. -/

/-- `add_plot` neither reads nor writes `filters_used`, so it commutes with
overriding that field. -/
theorem add_plot_filters_used_comm (q : Pipeline) (x : List String)
    (pl : Plot) (i : Option Nat) :
    add_plot { q with filters_used := x } pl i =
      { add_plot q pl i with filters_used := x } := rfl

theorem foldl_add_plot_filters_used_comm (L : List Plot) :
    ∀ (q : Pipeline) (x : List String),
      L.foldl (fun q2 pl => add_plot q2 pl none)
          { q with filters_used := x } =
        { L.foldl (fun q2 pl => add_plot q2 pl none) q with
          filters_used := x } := by
  induction L with
  | nil => intro q x; rfl
  | cons pl rest ih =>
      intro q x
      show rest.foldl _ (add_plot { q with filters_used := x } pl none) = _
      rw [add_plot_filters_used_comm]
      exact ih (add_plot q pl none) x

/-- `add_slot` neither reads nor writes `filters_used`. -/
theorem add_slot_filters_used_comm (fo : String → List String) (q : Pipeline)
    (x : List String) (s : Slot) (i : Option Nat) :
    add_slot fo { q with filters_used := x } s i =
      ({ (add_slot fo q s i).1 with filters_used := x },
        (add_slot fo q s i).2) := by
  unfold add_slot
  dsimp only
  split <;> rfl

theorem addSlots_filters_used_comm (fo : String → List String)
    (ss : List Slot) :
    ∀ (q : Pipeline) (x : List String),
      addSlots fo { q with filters_used := x } ss =
        ({ (addSlots fo q ss).1 with filters_used := x },
          (addSlots fo q ss).2) := by
  induction ss with
  | nil => intro q x; rfl
  | cons s rest ih =>
      intro q x
      rcases h : add_slot fo q s none with ⟨A, e⟩
      have hstep : add_slot fo { q with filters_used := x } s none =
          ({ A with filters_used := x }, e) := by
        rw [add_slot_filters_used_comm, h]
      cases e with
      | none =>
          have hl : addSlots fo { q with filters_used := x } (s :: rest) =
              addSlots fo { A with filters_used := x } rest := by
            show (match add_slot fo { q with filters_used := x } s none with
                  | (q2, some e2) => (q2, some e2)
                  | (q2, none) => addSlots fo q2 rest) = _
            rw [hstep]
          have hr : addSlots fo q (s :: rest) = addSlots fo A rest := by
            show (match add_slot fo q s none with
                  | (q2, some e2) => (q2, some e2)
                  | (q2, none) => addSlots fo q2 rest) = _
            rw [h]
          rw [hl, hr, ih A x]
      | some e2 =>
          have hl : addSlots fo { q with filters_used := x } (s :: rest) =
              ({ A with filters_used := x }, some e2) := by
            show (match add_slot fo { q with filters_used := x } s none with
                  | (q2, some e2) => (q2, some e2)
                  | (q2, none) => addSlots fo q2 rest) = _
            rw [hstep]
          have hr : addSlots fo q (s :: rest) = (A, some e2) := by
            show (match add_slot fo q s none with
                  | (q2, some e2) => (q2, some e2)
                  | (q2, none) => addSlots fo q2 rest) = _
            rw [h]
          rw [hl, hr]

/-- C8: first conjunct — applying a state blob equal by value to the last
applied one is a no-op.  Second conjunct — applying any other blob, when the
replay succeeds, produces exactly the pipeline obtained by resetting,
replaying `add_filter` for every filter state, then `add_plot` for every
plot state, then `add_slot` for every slot state, in that order, and then
restoring the used lists and the enablement matrix; in the source the
`filters_used` assignment happens textually between the filter replay and
the plot replay, but neither `add_plot` nor `add_slot` reads or writes
`filters_used`, so the resulting state is the same. -/
theorem setstate_short_circuit_and_replay (featuresOf : String → List String)
    (p : Pipeline) (s : PipelineState) :
    (p.old_state = some s → setstate featuresOf p s = (p, none)) ∧
    (p.old_state ≠ some s → (setstate featuresOf p s).2 = none →
      setstate featuresOf p s =
        ({ (addSlots featuresOf
             (s.plots.foldl (fun q pl => add_plot q pl none)
               (s.filters.foldl (fun q f => add_filter q f none)
                 (reset { p with old_state := some s }))) s.slots).1 with
           filters_used := s.filters_used
           slots_used := s.slots_used
           element_states := s.elements }, none)) := by
  constructor
  · intro h
    unfold setstate
    rw [if_pos h]
  · intro hne hok
    unfold setstate at hok ⊢
    rw [if_neg hne] at hok ⊢
    dsimp only at hok ⊢
    rw [foldl_add_plot_filters_used_comm] at hok ⊢
    rw [addSlots_filters_used_comm] at hok ⊢
    rcases h2 : addSlots featuresOf
        (s.plots.foldl (fun q pl => add_plot q pl none)
          (s.filters.foldl (fun q f => add_filter q f none)
            (reset { p with old_state := some s }))) s.slots with ⟨A, e⟩
    rw [h2] at hok
    cases e with
    | none => rfl
    | some e2 => simp at hok

/-- Fixtures for the C8 witness: a state blob with one filter, one plot and
one slot, and a pipeline that already has it as its last applied state. -/
def stateBlob : PipelineState :=
  { elements := [("slot-1", [("filt-1", true)])]
    filters := [filtF1]
    filters_used := ["filt-1"]
    plots := [plotG1]
    slots := [slotS1]
    slots_used := ["slot-1"] }

def pApplied : Pipeline := { initPipeline with old_state := some stateBlob }

theorem setstate_short_circuit_and_replay_witness :
    (pApplied.old_state = some stateBlob ∧
      setstate foAB pApplied stateBlob = (pApplied, none)) ∧
    (initPipeline.old_state ≠ some stateBlob ∧
      (setstate foAB initPipeline stateBlob).2 = none ∧
      setstate foAB initPipeline stateBlob =
        ({ (addSlots foAB
             (stateBlob.plots.foldl (fun q pl => add_plot q pl none)
               (stateBlob.filters.foldl (fun q f => add_filter q f none)
                 (reset { initPipeline with
                          old_state := some stateBlob }))) stateBlob.slots).1
           with
           filters_used := stateBlob.filters_used
           slots_used := stateBlob.slots_used
           element_states := stateBlob.elements }, none)) := by
  constructor
  · exact ⟨rfl,
      (setstate_short_circuit_and_replay foAB pApplied stateBlob).1 rfl⟩
  · refine ⟨by decide, by decide, ?_⟩
    exact (setstate_short_circuit_and_replay foAB initPipeline stateBlob).2
      (by decide) (by decide)

/-!  C6: completeness of the enablement matrix. -/

theorem lookup_setA_self (k : String) (v : Bool) :
    ∀ l : List (String × Bool), List.lookup k (setA l k v) = some v := by
  intro l
  induction l with
  | nil => simp [setA, List.lookup]
  | cons kv rest ih =>
      rcases kv with ⟨k2, v2⟩
      by_cases h : k2 = k
      · simp [setA, h, List.lookup_cons]
      · have hb : (k == k2) = false := beq_eq_false_iff_ne.mpr (Ne.symm h)
        simp [setA, h, List.lookup_cons, hb, ih]

theorem lookup_setA_ne (k k2 : String) (v : Bool) (h : k2 ≠ k) :
    ∀ l : List (String × Bool),
      List.lookup k2 (setA l k v) = List.lookup k2 l := by
  intro l
  induction l with
  | nil =>
      have hb : (k2 == k) = false := beq_eq_false_iff_ne.mpr h
      simp [setA, List.lookup, hb]
  | cons kv rest ih =>
      rcases kv with ⟨k3, v3⟩
      by_cases h3 : k3 = k
      · have hb : (k2 == k) = false := beq_eq_false_iff_ne.mpr h
        have hb2 : (k2 == k3) = false := by rw [h3]; exact hb
        simp [setA, h3, List.lookup_cons, hb, hb2]
      · simp [setA, h3, List.lookup_cons, ih]

theorem setA_idem (k : String) (v : Bool) :
    ∀ l : List (String × Bool), setA (setA l k v) k v = setA l k v := by
  intro l
  induction l with
  | nil => simp [setA]
  | cons kv rest ih =>
      rcases kv with ⟨k2, v2⟩
      by_cases h : k2 = k
      · simp [setA, h]
      · simp [setA, h, ih]

theorem lookup_eraseA_ne (k k2 : String) (h : k2 ≠ k) :
    ∀ l : List (String × Bool),
      List.lookup k2 (eraseA l k) = List.lookup k2 l := by
  intro l
  induction l with
  | nil => simp [eraseA]
  | cons kv rest ih =>
      rcases kv with ⟨k3, v3⟩
      by_cases h3 : k3 = k
      · have hb : (k2 == k) = false := beq_eq_false_iff_ne.mpr h
        have hb2 : (k2 == k3) = false := by rw [h3]; exact hb
        simp [eraseA, h3, List.lookup_cons, hb, hb2]
      · simp [eraseA, h3, List.lookup_cons, ih]

theorem lookup_setOuter_self (sid : String) (inner : List (String × Bool)) :
    ∀ es : ES, List.lookup sid (setOuter es sid inner) = some inner := by
  intro es
  induction es with
  | nil => simp [setOuter, List.lookup]
  | cons kv rest ih =>
      rcases kv with ⟨k2, v2⟩
      by_cases h : k2 = sid
      · simp [setOuter, h, List.lookup_cons]
      · have hb : (sid == k2) = false := beq_eq_false_iff_ne.mpr (Ne.symm h)
        simp [setOuter, h, List.lookup_cons, hb, ih]

theorem lookup_setOuter_ne (sid sid2 : String)
    (inner : List (String × Bool)) (h : sid2 ≠ sid) :
    ∀ es : ES,
      List.lookup sid2 (setOuter es sid inner) = List.lookup sid2 es := by
  intro es
  induction es with
  | nil =>
      have hb : (sid2 == sid) = false := beq_eq_false_iff_ne.mpr h
      simp [setOuter, List.lookup, hb]
  | cons kv rest ih =>
      rcases kv with ⟨k3, v3⟩
      by_cases h3 : k3 = sid
      · have hb : (sid2 == sid) = false := beq_eq_false_iff_ne.mpr h
        have hb2 : (sid2 == k3) = false := by rw [h3]; exact hb
        simp [setOuter, h3, List.lookup_cons, hb, hb2]
      · simp [setOuter, h3, List.lookup_cons, ih]

theorem lookup_setInner_self (sid fid : String) (v : Bool) :
    ∀ es : ES, List.lookup sid (setInner es sid fid v) =
      (List.lookup sid es).map (fun inner => setA inner fid v) := by
  intro es
  induction es with
  | nil => simp [setInner, List.lookup]
  | cons kv rest ih =>
      rcases kv with ⟨k2, v2⟩
      by_cases h : k2 = sid
      · simp [setInner, h, List.lookup_cons]
      · have hb : (sid == k2) = false := beq_eq_false_iff_ne.mpr (Ne.symm h)
        simp [setInner, h, List.lookup_cons, hb, ih]

theorem lookup_setInner_ne (sid sid2 fid : String) (v : Bool)
    (h : sid2 ≠ sid) :
    ∀ es : ES,
      List.lookup sid2 (setInner es sid fid v) = List.lookup sid2 es := by
  intro es
  induction es with
  | nil => simp [setInner]
  | cons kv rest ih =>
      rcases kv with ⟨k3, v3⟩
      by_cases h3 : k3 = sid
      · have hb : (sid2 == sid) = false := beq_eq_false_iff_ne.mpr h
        have hb2 : (sid2 == k3) = false := by rw [h3]; exact hb
        simp [setInner, h3, List.lookup_cons, hb, hb2]
      · simp [setInner, h3, List.lookup_cons, ih]

/-- Effect of the `for slot_id in self.slot_ids` loops of `add_filter` and
`add_plot` on a lookup. -/
theorem lookup_fold_setInner (fid : String) (v : Bool) :
    ∀ (sids : List String) (es : ES) (sid : String),
      List.lookup sid
          (sids.foldl (fun es2 s2 => setInner es2 s2 fid v) es) =
        if sid ∈ sids then
          (List.lookup sid es).map (fun inner => setA inner fid v)
        else List.lookup sid es := by
  intro sids
  induction sids with
  | nil => intro es sid; simp
  | cons s2 rest ih =>
      intro es sid
      show List.lookup sid
          (rest.foldl (fun es2 s3 => setInner es2 s3 fid v)
            (setInner es s2 fid v)) = _
      rw [ih]
      by_cases hmem : sid ∈ rest
      · rw [if_pos hmem, if_pos (List.mem_cons.mpr (Or.inr hmem))]
        by_cases hs : sid = s2
        · subst hs
          rw [lookup_setInner_self]
          cases List.lookup sid es with
          | none => rfl
          | some inner => simp [setA_idem]
        · rw [lookup_setInner_ne _ _ _ _ hs]
      · rw [if_neg hmem]
        by_cases hs : sid = s2
        · subst hs
          rw [lookup_setInner_self,
            if_pos (List.mem_cons.mpr (Or.inl rfl))]
        · rw [lookup_setInner_ne _ _ _ _ hs,
            if_neg (by simp [List.mem_cons, hs, hmem])]

/-- Effect of the pruning map of `remove_filter`/`remove_plot` on an outer
lookup. -/
theorem lookup_map_eraseA (k : String) :
    ∀ (es : ES) (sid : String),
      List.lookup sid (es.map (fun e => (e.1, eraseA e.2 k))) =
        (List.lookup sid es).map (fun inner => eraseA inner k) := by
  intro es
  induction es with
  | nil => intro sid; simp [List.lookup]
  | cons kv rest ih =>
      intro sid
      rcases kv with ⟨k2, v2⟩
      by_cases h : sid = k2
      · simp [h, List.lookup_cons]
      · have hb : (sid == k2) = false := beq_eq_false_iff_ne.mpr h
        simp [List.lookup_cons, hb, ih]

/-- Lookup in the freshly initialized inner mapping built by `add_slot`. -/
theorem lookup_map_pair_false (fid : String) :
    ∀ l : List String,
      List.lookup fid (l.map (fun x => (x, false))) =
        if fid ∈ l then some false else none := by
  intro l
  induction l with
  | nil => simp [List.lookup]
  | cons x rest ih =>
      by_cases h : fid = x
      · simp [h, List.lookup_cons]
      · have hb : (fid == x) = false := beq_eq_false_iff_ne.mpr h
        simp [List.lookup_cons, hb, ih, h]

theorem mem_pyInsert (l : List α) (i : Nat) (a a2 : α) :
    a2 ∈ pyInsert l i a ↔ a2 = a ∨ a2 ∈ l := by
  unfold pyInsert
  rw [List.mem_append, List.mem_cons]
  rw [show (a2 ∈ l ↔ a2 ∈ l.take i ∨ a2 ∈ l.drop i) from by
    rw [← List.mem_append, List.take_append_drop]]
  tauto

theorem map_pyInsert (f : α → β) (l : List α) (i : Nat) (a : α) :
    (pyInsert l i a).map f = pyInsert (l.map f) i (f a) := by
  simp [pyInsert, List.map_take, List.map_drop]

/-- Every slot present has an inner enablement mapping, and it has an entry
for every filter present. -/
def entriesComplete (p : Pipeline) : Prop :=
  ∀ sid ∈ slot_ids p,
    (List.lookup sid p.element_states).isSome = true ∧
    ∀ fid ∈ filter_ids p,
      (esLookup p.element_states sid fid).isSome = true

instance (p : Pipeline) : Decidable (entriesComplete p) := by
  unfold entriesComplete esLookup; infer_instance

theorem entriesComplete_add_filter (p : Pipeline) (f : Filter)
    (i : Option Nat) (hc : entriesComplete p) :
    entriesComplete (add_filter p f i) ∧
    ∀ sid ∈ slot_ids p,
      esLookup (add_filter p f i).element_states sid f.identifier =
        some false := by
  have hslots : slot_ids (add_filter p f i) = slot_ids p := rfl
  have hes : (add_filter p f i).element_states =
      (slot_ids p).foldl
        (fun es2 s2 => setInner es2 s2 f.identifier false)
        p.element_states := rfl
  have hfids : filter_ids (add_filter p f i) =
      pyInsert (filter_ids p) (i.getD p.filters.length) f.identifier := by
    show (pyInsert p.filters (i.getD p.filters.length) f).map
        Filter.identifier = _
    rw [map_pyInsert]
    rfl
  have hfresh : ∀ sid ∈ slot_ids p,
      esLookup (add_filter p f i).element_states sid f.identifier =
        some false := by
    intro sid hsid
    rw [hes]
    unfold esLookup
    rw [lookup_fold_setInner, if_pos hsid]
    rcases Option.isSome_iff_exists.mp (hc sid hsid).1 with ⟨inner, hinner⟩
    rw [hinner]
    simp [lookup_setA_self]
  refine ⟨?_, hfresh⟩
  intro sid hsid
  rw [hslots] at hsid
  have h1 := (hc sid hsid).1
  rcases Option.isSome_iff_exists.mp h1 with ⟨inner, hinner⟩
  constructor
  · rw [hes, lookup_fold_setInner, if_pos hsid, hinner]
    rfl
  · intro fid hfid
    rw [hfids, mem_pyInsert] at hfid
    by_cases heq : fid = f.identifier
    · rw [heq]
      rw [hfresh sid hsid]
      rfl
    · rcases hfid with h2 | h2
      · exact absurd h2 heq
      · unfold esLookup
        rw [hes, lookup_fold_setInner, if_pos hsid, hinner]
        show (List.lookup fid (setA inner f.identifier false)).isSome = true
        rw [lookup_setA_ne _ _ _ heq]
        have h3 := (hc sid hsid).2 fid h2
        unfold esLookup at h3
        rw [hinner] at h3
        exact h3

/-- The state part of `add_slot` is the same whether or not the feature
check raises. -/
theorem add_slot_fst (fo : String → List String) (p : Pipeline) (sl : Slot)
    (i : Option Nat) :
    (add_slot fo p sl i).1 =
      { p with slots := pyInsert p.slots (i.getD p.slots.length) sl,
               element_states := setOuter p.element_states sl.identifier
                 ((filter_ids p).map (fun fid => (fid, false))),
               slots_used := p.slots_used ++ [sl.identifier] } := by
  unfold add_slot
  dsimp only
  split <;> rfl

theorem entriesComplete_add_slot (fo : String → List String) (p : Pipeline)
    (sl : Slot) (i : Option Nat) (hc : entriesComplete p) :
    entriesComplete (add_slot fo p sl i).1 ∧
    ∀ fid ∈ filter_ids p,
      esLookup (add_slot fo p sl i).1.element_states sl.identifier fid =
        some false := by
  rw [add_slot_fst]
  have hfresh : ∀ fid ∈ filter_ids p,
      esLookup (setOuter p.element_states sl.identifier
        ((filter_ids p).map (fun fid2 => (fid2, false)))) sl.identifier fid =
        some false := by
    intro fid hfid
    unfold esLookup
    rw [lookup_setOuter_self]
    show List.lookup fid ((filter_ids p).map (fun fid2 => (fid2, false))) =
      some false
    rw [lookup_map_pair_false, if_pos hfid]
  refine ⟨?_, hfresh⟩
  intro sid hsid
  have hsid2 : sid = sl.identifier ∨ sid ∈ slot_ids p := by
    have : sid ∈ (pyInsert p.slots (i.getD p.slots.length) sl).map
        Slot.identifier := hsid
    rw [map_pyInsert] at this
    exact (mem_pyInsert _ _ _ _).mp this
  by_cases heq : sid = sl.identifier
  · subst heq
    constructor
    · rw [lookup_setOuter_self]; rfl
    · intro fid hfid
      rw [hfresh fid hfid]
      rfl
  · rcases hsid2 with h2 | h2
    · exact absurd h2 heq
    · constructor
      · rw [lookup_setOuter_ne _ _ _ heq]
        exact (hc sid h2).1
      · intro fid hfid
        unfold esLookup
        rw [lookup_setOuter_ne _ _ _ heq]
        exact (hc sid h2).2 fid hfid

theorem entriesComplete_add_plot (p : Pipeline) (pl : Plot) (i : Option Nat)
    (hc : entriesComplete p) :
    entriesComplete (add_plot p pl i) ∧
    ∀ sid ∈ slot_ids p,
      esLookup (add_plot p pl i).element_states sid pl.identifier =
        some false := by
  have hes : (add_plot p pl i).element_states =
      (slot_ids p).foldl
        (fun es2 s2 => setInner es2 s2 pl.identifier false)
        p.element_states := rfl
  have hfresh : ∀ sid ∈ slot_ids p,
      esLookup (add_plot p pl i).element_states sid pl.identifier =
        some false := by
    intro sid hsid
    rw [hes]
    unfold esLookup
    rw [lookup_fold_setInner, if_pos hsid]
    rcases Option.isSome_iff_exists.mp (hc sid hsid).1 with ⟨inner, hinner⟩
    rw [hinner]
    simp [lookup_setA_self]
  refine ⟨?_, hfresh⟩
  intro sid hsid
  have hslots : slot_ids (add_plot p pl i) = slot_ids p := rfl
  rw [hslots] at hsid
  have h1 := (hc sid hsid).1
  rcases Option.isSome_iff_exists.mp h1 with ⟨inner, hinner⟩
  constructor
  · rw [hes, lookup_fold_setInner, if_pos hsid, hinner]
    rfl
  · intro fid hfid
    have hfids : filter_ids (add_plot p pl i) = filter_ids p := rfl
    rw [hfids] at hfid
    by_cases heq : fid = pl.identifier
    · rw [heq, hfresh sid hsid]
      rfl
    · unfold esLookup
      rw [hes, lookup_fold_setInner, if_pos hsid, hinner]
      show (List.lookup fid (setA inner pl.identifier false)).isSome = true
      rw [lookup_setA_ne _ _ _ heq]
      have h3 := (hc sid hsid).2 fid hfid
      unfold esLookup at h3
      rw [hinner] at h3
      exact h3

theorem map_eraseIdx (f : α → β) :
    ∀ (l : List α) (i : Nat),
      (l.eraseIdx i).map f = (l.map f).eraseIdx i := by
  intro l
  induction l with
  | nil => intro i; simp [List.eraseIdx]
  | cons a rest ih =>
      intro i
      cases i with
      | zero => simp [List.eraseIdx]
      | succ i2 => simp [List.eraseIdx, ih]

theorem entriesComplete_remove_filter (p : Pipeline) (fid2 : String)
    (hc : entriesComplete p) (hnd : (filter_ids p).Nodup) :
    entriesComplete (remove_filter p fid2).1 := by
  rcases hidx : p.filters.findIdx? (fun f => f.identifier = fid2) with
    _ | index
  · have hp : (remove_filter p fid2).1 = p := by
      unfold remove_filter
      rw [hidx]
    rw [hp]
    exact hc
  · have hslots : (remove_filter p fid2).1.slots = p.slots := by
      unfold remove_filter
      rw [hidx]
      dsimp only
      split <;> rfl
    have hes : (remove_filter p fid2).1.element_states =
        p.element_states.map (fun e => (e.1, eraseA e.2 fid2)) := by
      unfold remove_filter
      rw [hidx]
      dsimp only
      split <;> rfl
    have hfil : (remove_filter p fid2).1.filters =
        p.filters.eraseIdx index := by
      unfold remove_filter
      rw [hidx]
      dsimp only
      split <;> rfl
    have hsl2 : slot_ids (remove_filter p fid2).1 = slot_ids p := by
      unfold slot_ids
      rw [hslots]
    have hfl2 : filter_ids (remove_filter p fid2).1 =
        (filter_ids p).eraseIdx index := by
      unfold filter_ids
      rw [hfil, map_eraseIdx]
    rcases List.findIdx?_eq_some_iff_getElem.mp hidx with ⟨hlt, hpred, _⟩
    have hid : (p.filters.get ⟨index, hlt⟩).identifier = fid2 :=
      of_decide_eq_true hpred
    intro sid hsid
    rw [hsl2] at hsid
    have h1 := hc sid hsid
    rcases Option.isSome_iff_exists.mp h1.1 with ⟨inner, hinner⟩
    unfold esLookup
    rw [hes, lookup_map_eraseA, hinner]
    constructor
    · rfl
    · intro fid hfid
      rw [hfl2] at hfid
      rcases List.mem_eraseIdx_iff_getElem.mp hfid with ⟨j, hj, hne, hval⟩
      have hmem : fid ∈ filter_ids p := hval ▸ List.getElem_mem hj
      have hlt2 : index < (filter_ids p).length := by
        simpa [filter_ids] using hlt
      have hidval : (filter_ids p)[index] = fid2 := by
        show (p.filters.map Filter.identifier)[index] = fid2
        rw [List.getElem_map]
        exact hid
      have hneq : fid ≠ fid2 := by
        intro hcontra
        apply hne
        have h5 : (filter_ids p)[j] = (filter_ids p)[index] := by
          rw [hval, hidval, hcontra]
        exact (List.Nodup.getElem_inj_iff hnd).mp h5
      show (List.lookup fid (eraseA inner fid2)).isSome = true
      rw [lookup_eraseA_ne _ _ hneq]
      have h3 := h1.2 fid hmem
      unfold esLookup at h3
      rw [hinner] at h3
      exact h3

theorem entriesComplete_remove_plot (p : Pipeline) (pid2 : String)
    (hc : entriesComplete p) (hpl : pid2 ∉ filter_ids p) :
    entriesComplete (remove_plot p pid2).1 := by
  rcases hidx : p.plots.findIdx? (fun f => f.identifier = pid2) with
    _ | index
  · have hp : (remove_plot p pid2).1 = p := by
      unfold remove_plot
      rw [hidx]
    rw [hp]
    exact hc
  · have hslots : (remove_plot p pid2).1.slots = p.slots := by
      unfold remove_plot
      rw [hidx]
    have hes : (remove_plot p pid2).1.element_states =
        p.element_states.map (fun e => (e.1, eraseA e.2 pid2)) := by
      unfold remove_plot
      rw [hidx]
    have hfil : (remove_plot p pid2).1.filters = p.filters := by
      unfold remove_plot
      rw [hidx]
    have hsl2 : slot_ids (remove_plot p pid2).1 = slot_ids p := by
      unfold slot_ids
      rw [hslots]
    have hfl2 : filter_ids (remove_plot p pid2).1 = filter_ids p := by
      unfold filter_ids
      rw [hfil]
    intro sid hsid
    rw [hsl2] at hsid
    have h1 := hc sid hsid
    rcases Option.isSome_iff_exists.mp h1.1 with ⟨inner, hinner⟩
    unfold esLookup
    rw [hes, lookup_map_eraseA, hinner]
    constructor
    · rfl
    · intro fid hfid
      rw [hfl2] at hfid
      have hneq : fid ≠ pid2 := by
        intro hcontra
        exact hpl (hcontra ▸ hfid)
      show (List.lookup fid (eraseA inner pid2)).isSome = true
      rw [lookup_eraseA_ne _ _ hneq]
      have h3 := h1.2 fid hfid
      unfold esLookup at h3
      rw [hinner] at h3
      exact h3

theorem entriesComplete_remove_slot (p : Pipeline) (sid2 : String)
    (hc : entriesComplete p) :
    entriesComplete (remove_slot p sid2).1 := by
  rcases hidx : p.filters.findIdx? (fun f => f.identifier = sid2) with
    _ | index
  · have hp : (remove_slot p sid2).1 = p := by
      unfold remove_slot
      rw [hidx]
    rw [hp]
    exact hc
  · have hslots : (remove_slot p sid2).1.slots = p.slots := by
      unfold remove_slot
      rw [hidx]
    have hes : (remove_slot p sid2).1.element_states = p.element_states := by
      unfold remove_slot
      rw [hidx]
    have hfil : (remove_slot p sid2).1.filters =
        p.filters.eraseIdx index := by
      unfold remove_slot
      rw [hidx]
    have hsl2 : slot_ids (remove_slot p sid2).1 = slot_ids p := by
      unfold slot_ids
      rw [hslots]
    have hfl2 : filter_ids (remove_slot p sid2).1 =
        (filter_ids p).eraseIdx index := by
      unfold filter_ids
      rw [hfil, map_eraseIdx]
    intro sid hsid
    rw [hsl2] at hsid
    have h1 := hc sid hsid
    unfold esLookup
    rw [hes]
    refine ⟨h1.1, ?_⟩
    intro fid hfid
    rw [hfl2] at hfid
    have hmem : fid ∈ filter_ids p :=
      List.Sublist.mem hfid (List.eraseIdx_sublist _ _)
    have h3 := h1.2 fid hmem
    unfold esLookup at h3
    exact h3

/-- C6 amended: after every add or remove, the enablement matrix has an
entry for every (slot, FILTER) pair currently present, and every freshly
created pair gets the entry `false`; `add_filter` and `add_plot` initialize
their new column for every existing slot, while `add_slot` initializes the
new row against every existing filter ONLY — not against existing plots (the
original claim fails there, see the counterexample) — so a (slot, plot)
entry exists exactly when the slot was added before the plot.  Hypotheses:
the invariant held before, filter identifiers are distinct, and the removed
plot identifier is not also a filter identifier (identifiers are globally
unique in the source registries). -/
theorem enablement_entries_invariant (p : Pipeline)
    (fo : String → List String) (f : Filter) (pl : Plot) (sl : Slot)
    (i : Option Nat) (fid2 pid2 sid2 : String)
    (hc : entriesComplete p)
    (hnd : (filter_ids p).Nodup)
    (hpl : pid2 ∉ filter_ids p) :
    (entriesComplete (add_filter p f i) ∧
      ∀ sid ∈ slot_ids p,
        esLookup (add_filter p f i).element_states sid f.identifier =
          some false) ∧
    (entriesComplete (add_slot fo p sl i).1 ∧
      ∀ fid ∈ filter_ids p,
        esLookup (add_slot fo p sl i).1.element_states sl.identifier fid =
          some false) ∧
    (entriesComplete (add_plot p pl i) ∧
      ∀ sid ∈ slot_ids p,
        esLookup (add_plot p pl i).element_states sid pl.identifier =
          some false) ∧
    entriesComplete (remove_filter p fid2).1 ∧
    entriesComplete (remove_plot p pid2).1 ∧
    entriesComplete (remove_slot p sid2).1 :=
  ⟨entriesComplete_add_filter p f i hc,
   entriesComplete_add_slot fo p sl i hc,
   entriesComplete_add_plot p pl i hc,
   entriesComplete_remove_filter p fid2 hc hnd,
   entriesComplete_remove_plot p pid2 hc hpl,
   entriesComplete_remove_slot p sid2 hc⟩

theorem enablement_entries_invariant_witness :
    entriesComplete pScenario ∧
    (filter_ids pScenario).Nodup ∧
    "plot-1" ∉ filter_ids pScenario ∧
    (entriesComplete (add_filter pScenario filtF2 none) ∧
      ∀ sid ∈ slot_ids pScenario,
        esLookup (add_filter pScenario filtF2 none).element_states sid
          filtF2.identifier = some false) ∧
    (entriesComplete (add_slot foAB pScenario slotS2 none).1 ∧
      ∀ fid ∈ filter_ids pScenario,
        esLookup (add_slot foAB pScenario slotS2 none).1.element_states
          slotS2.identifier fid = some false) ∧
    (entriesComplete (add_plot pScenario plotG1 none) ∧
      ∀ sid ∈ slot_ids pScenario,
        esLookup (add_plot pScenario plotG1 none).element_states sid
          plotG1.identifier = some false) ∧
    entriesComplete (remove_filter pScenario "filt-1").1 ∧
    entriesComplete (remove_plot pScenario "plot-1").1 ∧
    entriesComplete (remove_slot pScenario "slot-1").1 :=
  ⟨by decide, by decide, by decide,
    enablement_entries_invariant pScenario foAB filtF2 plotG1 slotS2 none
      "filt-1" "plot-1" "slot-1" (by decide) (by decide) (by decide)⟩

/-!  C1: the incremental rebuild strategies agree with a full rebuild. -/

theorem map_fun_const (b : β) :
    ∀ l : List α, l.map (fun _ => b) = List.replicate l.length b := by
  intro l
  induction l with
  | nil => rfl
  | cons a t ih => simp [ih, List.replicate_succ]

theorem rowKinds_append (l1 l2 : List Cell) :
    rowKinds (l1 ++ l2) = rowKinds l1 ++ rowKinds l2 := by
  simp [rowKinds]

theorem rowKinds_replicate_child (k : Nat) :
    rowKinds (List.replicate k
      { kind := CellKind.child, filtering := FilteringCfg.initial }) =
      List.replicate k CellKind.child := by
  simp [rowKinds, List.map_replicate]

theorem freshRow_kinds (sl : Slot) (filters : List Filter) :
    rowKinds (freshRow sl filters) =
      CellKind.base sl.path sl.identifier ::
        List.replicate filters.length CellKind.child := by
  unfold freshRow rowKinds
  rw [List.map_cons, List.map_map]
  show CellKind.base sl.path sl.identifier ::
    filters.map (fun _ => CellKind.child) = _
  rw [map_fun_const]

/-- What a well-formed row looks like: a base cell carrying the stored path
followed by one hierarchy child per cached filter. -/
theorem rowMatches_kinds (p : Pipeline) (row : List Cell) (sid : String)
    (h : RowMatches p row sid) :
    ∃ pth, rowHeadPath row = some pth ∧
      rowKinds row = CellKind.base pth sid ::
        List.replicate p.matrix_filters.length CellKind.child := by
  obtain ⟨h1, h2, _⟩ := h
  cases row with
  | nil => cases h1
  | cons c rest =>
      rcases c with ⟨ck, cf⟩
      cases ck with
      | child => cases h1
      | base pth sid2 =>
          have hsid : sid2 = sid := by
            have : some sid2 = some sid := h1
            injection this
          subst hsid
          refine ⟨pth, rfl, ?_⟩
          show CellKind.base pth sid2 :: rowKinds rest = _
          have h2b : rowKinds rest =
              List.replicate p.matrix_filters.length CellKind.child := h2
          rw [h2b]

/-- Any matrix row whose base identifier is `s` is well formed for `s`,
given the zip invariant. -/
theorem rowMatches_of_mem (p : Pipeline)
    (hlen : p.matrix.length = p.matrix_slots.length)
    (hrows : ∀ pr ∈ List.zip p.matrix p.matrix_slots,
      RowMatches p pr.1 pr.2)
    (row : List Cell) (hmem : row ∈ p.matrix) (s : String)
    (hhead : rowHeadId row = some s) : RowMatches p row s := by
  obtain ⟨i, hi, hrow⟩ := List.getElem_of_mem hmem
  have hiz : i < (List.zip p.matrix p.matrix_slots).length := by
    rw [List.length_zip, hlen]
    exact lt_min (hlen ▸ hi) (hlen ▸ hi)
  have hpair := hrows (List.zip p.matrix p.matrix_slots)[i]
    (List.getElem_mem hiz)
  rw [List.getElem_zip] at hpair
  dsimp only at hpair
  rw [hrow] at hpair
  have hsid : p.matrix_slots[i] = s := by
    have hh := hpair.1
    rw [hhead] at hh
    injection hh with hv
    exact hv.symm
  rw [← hsid]
  exact hpair

/-- The matrix of a pipeline whose cache matches the current configuration
has, row for row, the kinds of a freshly built matrix. -/
theorem kinds_of_wf_matrix (p : Pipeline)
    (hlen : p.matrix.length = p.matrix_slots.length)
    (hrows : ∀ pr ∈ List.zip p.matrix p.matrix_slots,
      RowMatches p pr.1 pr.2)
    (hs : p.matrix_slots = slot_ids p)
    (hn : p.matrix_filters.length = p.filters.length) :
    p.matrix.map rowKinds = (full_matrix p).map rowKinds := by
  have hlen2 : p.matrix.length = p.slots.length := by
    rw [hlen, hs]
    simp [slot_ids]
  apply List.ext_getElem
  · simp [full_matrix, hlen2]
  · intro i h1 h2
    have hi : i < p.matrix.length := by simpa using h1
    have hi2 : i < p.slots.length := by rw [← hlen2]; exact hi
    have hiz : i < (List.zip p.matrix p.matrix_slots).length := by
      rw [List.length_zip, hlen]
      exact lt_min (hlen ▸ hi) (hlen ▸ hi)
    have hpair := hrows (List.zip p.matrix p.matrix_slots)[i]
      (List.getElem_mem hiz)
    rw [List.getElem_zip] at hpair
    dsimp only at hpair
    rcases rowMatches_kinds p _ _ hpair with ⟨pth, hpath, hkinds⟩
    have hsid : p.matrix_slots[i] = (p.slots[i]).identifier := by
      simp only [hs, slot_ids, List.getElem_map]
    have hpth : pth = (p.slots[i]).path := by
      have h3 := hpair.2.2 p.slots[i] (List.getElem_mem hi2)
        (by rw [← hsid])
      rw [hpath] at h3
      injection h3
    rw [List.getElem_map, List.getElem_map, hkinds]
    simp only [full_matrix, List.getElem_map]
    rw [freshRow_kinds, hsid, hpth, hn]

/-- The matrix produced by `construct_matrix` — by whichever strategy fires —
has, row for row, the kinds of the matrix a full rebuild (strategy 3) builds
from the current slots and filters. -/
theorem construct_matrix_kinds (p : Pipeline) (hwf : matrixWF p) :
    (construct_matrix p).matrix.map rowKinds =
      (full_matrix p).map rowKinds := by
  obtain ⟨hhash, hlen, hrows⟩ := hwf
  unfold construct_matrix
  dsimp only
  by_cases hne : p.matrix_hash ≠ some (slot_ids p, filter_ids p)
  case neg =>
    rw [if_neg hne]
    push_neg at hne
    rcases hhash with h0 | h0
    · rw [h0] at hne
      cases hne
    · rw [h0] at hne
      injection hne with h1
      have hs : p.matrix_slots = slot_ids p := congrArg Prod.fst h1
      have hf : p.matrix_filters = filter_ids p := congrArg Prod.snd h1
      have hn : p.matrix_filters.length = p.filters.length := by
        rw [hf]
        simp [filter_ids]
      exact kinds_of_wf_matrix p hlen hrows hs hn
  case pos =>
    rw [if_pos hne]
    dsimp only
    by_cases h1 : p.matrix_filters = filter_ids p
    · rw [if_pos h1]
      have hn : p.matrix_filters.length = p.filters.length := by
        rw [h1]
        simp [filter_ids]
      unfold full_matrix
      rw [List.map_map, List.map_map]
      apply List.map_congr_left
      intro sl hsl
      show rowKinds (match p.matrix.find?
          (fun row => rowHeadId row = some sl.identifier) with
        | some row => row
        | none => freshRow sl p.filters) = rowKinds (freshRow sl p.filters)
      rcases hfind : p.matrix.find?
          (fun row => rowHeadId row = some sl.identifier) with _ | row
      · rfl
      · have hmem := List.mem_of_find?_eq_some hfind
        have hpred := List.find?_some hfind
        have hhead : rowHeadId row = some sl.identifier :=
          of_decide_eq_true hpred
        have hmatch := rowMatches_of_mem p hlen hrows row hmem _ hhead
        rcases rowMatches_kinds p _ _ hmatch with ⟨pth, hpath, hkinds⟩
        have hpth : pth = sl.path := by
          have h3 := hmatch.2.2 sl hsl rfl
          rw [hpath] at h3
          injection h3
        rw [hkinds, freshRow_kinds, hpth, hn]
    · rw [if_neg h1]
      by_cases h2 : p.matrix_slots = slot_ids p ∧
          p.matrix_filters = (filter_ids p).take p.matrix_filters.length
      · rw [if_pos h2]
        have hlen2 : p.matrix.length ≤ p.slots.length := by
          rw [hlen, h2.1]
          simp [slot_ids]
        rw [extendRows_all _ _ _ hlen2]
        have hnle : p.matrix_filters.length ≤ p.filters.length := by
          have := congrArg List.length h2.2
          simp [filter_ids] at this
          omega
        apply List.ext_getElem
        · simp [full_matrix, hlen, h2.1, slot_ids]
        · intro i hh1 hh2
          have hi : i < p.matrix.length := by simpa using hh1
          have hi2 : i < p.slots.length := by
            have := hlen2
            omega
          have hiz : i < (List.zip p.matrix p.matrix_slots).length := by
            rw [List.length_zip, hlen]
            exact lt_min (hlen ▸ hi) (hlen ▸ hi)
          have hpair := hrows (List.zip p.matrix p.matrix_slots)[i]
            (List.getElem_mem hiz)
          rw [List.getElem_zip] at hpair
          dsimp only at hpair
          rcases rowMatches_kinds p _ _ hpair with ⟨pth, hpath, hkinds⟩
          have hsid : p.matrix_slots[i] = (p.slots[i]).identifier := by
            simp only [h2.1, slot_ids, List.getElem_map]
          have hpth : pth = (p.slots[i]).path := by
            have h3 := hpair.2.2 p.slots[i] (List.getElem_mem hi2)
              (by rw [← hsid])
            rw [hpath] at h3
            injection h3
          have harith : p.matrix_filters.length +
              (p.filters.length - p.matrix_filters.length) =
              p.filters.length := by omega
          rw [List.getElem_map, List.getElem_map, List.getElem_map,
            rowKinds_append, rowKinds_replicate_child, hkinds]
          simp only [full_matrix, List.getElem_map]
          rw [freshRow_kinds, hsid, hpth, List.cons_append,
            ← List.replicate_add, harith]
      · rw [if_neg h2]

/-- The pipeline state a full rebuild (strategy 3) would produce from the
current configuration: the matrix is rebuilt from scratch and the
fingerprint data re-cached. -/
def full_rebuild (p : Pipeline) : Pipeline :=
  { p with matrix := full_matrix p,
           matrix_hash := some (slot_ids p, filter_ids p),
           matrix_slots := slot_ids p, matrix_filters := filter_ids p }

/-- Observational equality of two pipelines: all configuration fields agree
and the matrices have the same cell kinds row for row (they may differ in
the residual filtering configuration stored on cells, which every read path
rewrites before use). -/
def ObsEq (p1 p2 : Pipeline) : Prop :=
  p1.filters = p2.filters ∧ p1.filters_used = p2.filters_used ∧
  p1.plots = p2.plots ∧ p1.slots = p2.slots ∧
  p1.slots_used = p2.slots_used ∧ p1.element_states = p2.element_states ∧
  p1.matrix_hash = p2.matrix_hash ∧ p1.matrix_slots = p2.matrix_slots ∧
  p1.matrix_filters = p2.matrix_filters ∧ p1.old_state = p2.old_state ∧
  p1.matrix.map rowKinds = p2.matrix.map rowKinds

theorem construct_matrix_idem (p : Pipeline) :
    construct_matrix (construct_matrix p) = construct_matrix p := by
  apply construct_matrix_noop
  rw [construct_matrix_hash]
  unfold slot_ids filter_ids
  rw [construct_matrix_slots, construct_matrix_filters]

theorem construct_hash_cur (p : Pipeline) :
    (construct_matrix p).matrix_hash =
      some (slot_ids (construct_matrix p),
        filter_ids (construct_matrix p)) := by
  rw [construct_matrix_hash]
  unfold slot_ids filter_ids
  rw [construct_matrix_slots, construct_matrix_filters]

theorem get_dataset_construct (p : Pipeline) (si fi : Nat) (ap : Bool) :
    get_dataset p si fi ap = get_dataset (construct_matrix p) si fi ap := by
  unfold get_dataset
  rw [construct_matrix_idem]

theorem construct_matrix_cached_slots (p : Pipeline) (hwf : matrixWF p) :
    (construct_matrix p).matrix_slots = slot_ids p := by
  unfold construct_matrix
  dsimp only
  by_cases hne : p.matrix_hash ≠ some (slot_ids p, filter_ids p)
  · rw [if_pos hne]
  · rw [if_neg hne]
    push_neg at hne
    rcases hwf.1 with h0 | h0
    · rw [h0] at hne; cases hne
    · rw [h0] at hne
      injection hne with h1
      exact congrArg Prod.fst h1

theorem construct_matrix_cached_filters (p : Pipeline) (hwf : matrixWF p) :
    (construct_matrix p).matrix_filters = filter_ids p := by
  unfold construct_matrix
  dsimp only
  by_cases hne : p.matrix_hash ≠ some (slot_ids p, filter_ids p)
  · rw [if_pos hne]
  · rw [if_neg hne]
    push_neg at hne
    rcases hwf.1 with h0 | h0
    · rw [h0] at hne; cases hne
    · rw [h0] at hne
      injection hne with h1
      exact congrArg Prod.snd h1

theorem cellFilterDecision_congr (p1 p2 : Pipeline)
    (fs : List (String × Bool)) (ii : Nat)
    (hf : p1.filters = p2.filters) (hu : p1.filters_used = p2.filters_used) :
    cellFilterDecision p1 fs ii = cellFilterDecision p2 fs ii := by
  unfold cellFilterDecision
  rw [hf, hu]

theorem configureRow_congr (p1 p2 : Pipeline) (fs : List (String × Bool))
    (fi : Nat) (hf : p1.filters = p2.filters)
    (hu : p1.filters_used = p2.filters_used) :
    ∀ (st : Nat) (row : List Cell),
      configureRow p1 fs fi st row = configureRow p2 fs fi st row := by
  intro st row
  induction row generalizing st with
  | nil => rfl
  | cons c t ih =>
      show (if st ≤ fi then _ else c) :: _ = (if st ≤ fi then _ else c) :: _
      rw [cellFilterDecision_congr p1 p2 fs st hf hu, ih (st + 1)]

theorem configureRow_kinds (p : Pipeline) (fs : List (String × Bool))
    (fi : Nat) :
    ∀ (st : Nat) (row : List Cell),
      rowKinds (configureRow p fs fi st row) = rowKinds row := by
  intro st row
  induction row generalizing st with
  | nil => rfl
  | cons c t ih =>
      show rowKinds ((if st ≤ fi then _ else c) :: _) = _
      unfold rowKinds
      rw [List.map_cons, List.map_cons]
      have hk : (if st ≤ fi then
          { c with filtering := cellFilterDecision p fs st } else c).kind =
          c.kind := by
        split <;> rfl
      rw [hk]
      have ih2 := ih (st + 1)
      unfold rowKinds at ih2
      rw [ih2]

theorem configureRow_take_congr (p : Pipeline) (fs : List (String × Bool))
    (fi : Nat) :
    ∀ (r1 r2 : List Cell), rowKinds r1 = rowKinds r2 →
      ∀ st, (configureRow p fs fi st r1).take (fi + 1 - st) =
        (configureRow p fs fi st r2).take (fi + 1 - st) := by
  intro r1
  induction r1 with
  | nil =>
      intro r2 hk st
      have : r2 = [] := by
        have h2 : List.map Cell.kind r2 = [] := by
          have := hk.symm
          simpa [rowKinds] using this
        exact List.map_eq_nil_iff.mp h2
      rw [this]
  | cons c1 t1 ih =>
      intro r2 hk st
      cases r2 with
      | nil => simp [rowKinds] at hk
      | cons c2 t2 =>
          simp only [rowKinds, List.map_cons] at hk
          injection hk with hk1 hk2
          rcases hfi : fi + 1 - st with _ | n
          · rfl
          · have hle : st ≤ fi := by omega
            show ((if st ≤ fi then _ else c1) :: _).take (n + 1) =
              ((if st ≤ fi then _ else c2) :: _).take (n + 1)
            rw [if_pos hle, if_pos hle]
            rw [List.take_succ_cons, List.take_succ_cons]
            congr 1
            · show ({ c1 with filtering := cellFilterDecision p fs st }
                : Cell) = { c2 with filtering := cellFilterDecision p fs st }
              show (⟨c1.kind, cellFilterDecision p fs st⟩ : Cell) =
                ⟨c2.kind, cellFilterDecision p fs st⟩
              rw [hk1]
            · have hn : n = fi + 1 - (st + 1) := by omega
              rw [hn]
              exact ih t2 hk2 (st + 1)

theorem rowKinds_getD_congr (m1 : List (List Cell)) :
    ∀ m2 : List (List Cell), m1.map rowKinds = m2.map rowKinds →
      ∀ si, rowKinds (m1.getD si []) = rowKinds (m2.getD si []) := by
  induction m1 with
  | nil =>
      intro m2 h si
      have : m2 = [] := List.map_eq_nil_iff.mp h.symm
      rw [this]
  | cons r1 t1 ih =>
      intro m2 h si
      cases m2 with
      | nil => simp at h
      | cons r2 t2 =>
          simp only [List.map_cons] at h
          injection h with h1 h2
          cases si with
          | zero => exact h1
          | succ si2 => exact ih t2 h2 si2

/-- Core observational step: on two pipelines that are observationally equal
and whose caches are current, `get_dataset` returns the same view and
preserves observational equality and cache currency. -/
theorem get_dataset_obsEq (q1 q2 : Pipeline) (si fi : Nat) (ap : Bool)
    (h : ObsEq q1 q2)
    (hcur : q1.matrix_hash = some (slot_ids q1, filter_ids q1)) :
    (get_dataset q1 si fi ap).2 = (get_dataset q2 si fi ap).2 ∧
    ObsEq (get_dataset q1 si fi ap).1 (get_dataset q2 si fi ap).1 ∧
    (get_dataset q1 si fi ap).1.matrix_hash =
      some (slot_ids (get_dataset q1 si fi ap).1,
        filter_ids (get_dataset q1 si fi ap).1) := by
  obtain ⟨hf, hu, hp, hsl, hsu, hes, hh, hms, hmf, hos, hm⟩ := h
  have hcur2 : q2.matrix_hash = some (slot_ids q2, filter_ids q2) := by
    rw [← hh, hcur]
    unfold slot_ids filter_ids
    rw [hsl, hf]
  have hno1 := construct_matrix_noop q1 hcur
  have hno2 := construct_matrix_noop q2 hcur2
  have hslot : q1.slots.getD si default = q2.slots.getD si default := by
    rw [hsl]
  have hfst : (List.lookup (q1.slots.getD si default).identifier
        q1.element_states).getD [] =
      (List.lookup (q2.slots.getD si default).identifier
        q2.element_states).getD [] := by
    rw [hslot, hes]
  have hrowk : rowKinds (q1.matrix.getD si []) =
      rowKinds (q2.matrix.getD si []) := rowKinds_getD_congr _ _ hm si
  have hchain : (configureRow q1
        ((List.lookup (q1.slots.getD si default).identifier
          q1.element_states).getD []) fi 0 (q1.matrix.getD si [])).take
        (fi + 1) =
      (configureRow q2
        ((List.lookup (q2.slots.getD si default).identifier
          q2.element_states).getD []) fi 0 (q2.matrix.getD si [])).take
        (fi + 1) := by
    rw [← hfst, configureRow_congr q1 q2 _ fi hf hu]
    have := configureRow_take_congr q2
      ((List.lookup (q1.slots.getD si default).identifier
        q1.element_states).getD []) fi
      (q1.matrix.getD si []) (q2.matrix.getD si []) hrowk 0
    simpa using this
  have hrow2k : rowKinds (configureRow q1
        ((List.lookup (q1.slots.getD si default).identifier
          q1.element_states).getD []) fi 0 (q1.matrix.getD si [])) =
      rowKinds (configureRow q2
        ((List.lookup (q2.slots.getD si default).identifier
          q2.element_states).getD []) fi 0 (q2.matrix.getD si [])) := by
    rw [configureRow_kinds, configureRow_kinds]
    exact hrowk
  unfold get_dataset
  rw [hno1, hno2]
  dsimp only
  refine ⟨?_, ?_, ?_⟩
  · rw [View.mk.injEq]
    exact ⟨hchain, by rw [hslot], rfl⟩
  · refine ⟨hf, hu, hp, hsl, hsu, hes, hh, hms, hmf, hos, ?_⟩
    rw [List.map_set, List.map_set, hm, hrow2k]
  · exact hcur

/-- Folds of `get_dataset` views (the shape of `get_features` and
`get_min_max`) produce the same output on observationally equal pipelines
with current caches. -/
theorem foldl_view_congr {β : Type} (g : β → View → β) :
    ∀ (L : List Nat) (q1 q2 : Pipeline) (acc : β), ObsEq q1 q2 →
      q1.matrix_hash = some (slot_ids q1, filter_ids q1) →
      (L.foldl (fun a si => ((get_dataset a.1 si 0 false).1,
          g a.2 (get_dataset a.1 si 0 false).2)) (q1, acc)).2 =
      (L.foldl (fun a si => ((get_dataset a.1 si 0 false).1,
          g a.2 (get_dataset a.1 si 0 false).2)) (q2, acc)).2 := by
  intro L
  induction L with
  | nil =>
      intro q1 q2 acc h hcur
      rfl
  | cons si rest ih =>
      intro q1 q2 acc h hcur
      obtain ⟨hv, hobs2, hcur2⟩ := get_dataset_obsEq q1 q2 si 0 false h hcur
      show (rest.foldl _ ((get_dataset q1 si 0 false).1,
        g acc (get_dataset q1 si 0 false).2)).2 = _
      rw [hv]
      exact ih _ _ _ hobs2 hcur2

/-- The first `get_dataset` call inside a view fold constructs the matrix,
so the fold may as well start from the constructed pipeline. -/
theorem foldl_view_construct {β : Type} (g : β → View → β)
    (L : List Nat) (q : Pipeline) (acc : β) :
    (L.foldl (fun a si => ((get_dataset a.1 si 0 false).1,
        g a.2 (get_dataset a.1 si 0 false).2)) (q, acc)).2 =
    (L.foldl (fun a si => ((get_dataset a.1 si 0 false).1,
        g a.2 (get_dataset a.1 si 0 false).2))
      (construct_matrix q, acc)).2 := by
  cases L with
  | nil => rfl
  | cons si rest =>
      show (rest.foldl _ ((get_dataset q si 0 false).1,
        g acc (get_dataset q si 0 false).2)).2 = _
      rw [get_dataset_construct q si 0 false]
      rfl

/-- C1: for every pipeline whose cached matrix is well formed — the state
every sequence of `add_slot`/`add_filter` calls leaves behind, since adds do
not touch the cache — the pipeline behaves exactly like the pipeline a full
rebuild (strategy 3) would produce from the same final configuration:
`get_dataset` returns the same view at every (slot, filter depth, apply)
triple (in particular the same terminal views), and `get_features` and
`get_min_max` return the same feature sets and the same extrema for every
feature oracle and data oracle. -/
theorem incremental_equals_full_rebuild (p : Pipeline) (hwf : matrixWF p) :
    (∀ si fi ap, (get_dataset p si fi ap).2 =
      (get_dataset (full_rebuild p) si fi ap).2) ∧
    (∀ allF fo, (get_features allF fo p).2 =
      (get_features allF fo (full_rebuild p)).2) ∧
    (∀ dataOf feat, (get_min_max dataOf p feat).2 =
      (get_min_max dataOf (full_rebuild p) feat).2) := by
  have hobs : ObsEq (construct_matrix p) (full_rebuild p) := by
    refine ⟨construct_matrix_filters p, construct_matrix_filters_used p,
      construct_matrix_plots p, construct_matrix_slots p,
      construct_matrix_slots_used p, construct_matrix_element_states p,
      construct_matrix_hash p, construct_matrix_cached_slots p hwf,
      construct_matrix_cached_filters p hwf, construct_matrix_old_state p,
      construct_matrix_kinds p hwf⟩
  have hcur1 := construct_hash_cur p
  refine ⟨?_, ?_, ?_⟩
  · intro si fi ap
    rw [get_dataset_construct p si fi ap]
    exact (get_dataset_obsEq _ _ si fi ap hobs hcur1).1
  · intro allF fo
    have h1 := foldl_view_construct
      (fun b v => sortStr ((b.filter
        (fun f => f ∈ viewFeatures fo v)).dedup))
      (List.range (num_slots p)) p allF
    have h2 := foldl_view_congr
      (fun b v => sortStr ((b.filter
        (fun f => f ∈ viewFeatures fo v)).dedup))
      (List.range (num_slots p))
      (construct_matrix p) (full_rebuild p) allF hobs hcur1
    exact h1.trans h2
  · intro dataOf feat
    have h1 := foldl_view_construct
      (fun b v => (omin b.1 (foldMin
          (dataOf ((rowHeadPath v.chain).getD "") feat)),
        omax b.2 (foldMax
          (dataOf ((rowHeadPath v.chain).getD "") feat))))
      (List.range (num_slots p)) p
      ((none, none) : Option Int × Option Int)
    have h2 := foldl_view_congr
      (fun b v => (omin b.1 (foldMin
          (dataOf ((rowHeadPath v.chain).getD "") feat)),
        omax b.2 (foldMax
          (dataOf ((rowHeadPath v.chain).getD "") feat))))
      (List.range (num_slots p))
      (construct_matrix p) (full_rebuild p)
      ((none, none) : Option Int × Option Int) hobs hcur1
    exact h1.trans h2

theorem incremental_equals_full_rebuild_witness :
    matrixWF pAppended ∧
    (get_dataset pAppended 0 1 true).2 =
      (get_dataset (full_rebuild pAppended) 0 1 true).2 ∧
    (get_features ["area", "bright", "other"] foAB pAppended).2 =
      (get_features ["area", "bright", "other"] foAB
        (full_rebuild pAppended)).2 ∧
    (get_min_max (fun _ _ => [(3 : Int), 1, 2]) pAppended "area").2 =
      (get_min_max (fun _ _ => [(3 : Int), 1, 2])
        (full_rebuild pAppended) "area").2 :=
  ⟨by decide,
    (incremental_equals_full_rebuild pAppended (by decide)).1 0 1 true,
    (incremental_equals_full_rebuild pAppended (by decide)).2.1
      ["area", "bright", "other"] foAB,
    (incremental_equals_full_rebuild pAppended (by decide)).2.2
      (fun _ _ => [(3 : Int), 1, 2]) "area"⟩

/-!  C9: what `get_plot_datasets` returns. -/

/-- A one-slot one-filter one-plot pipeline with the slot enabled for both
the filter and the plot (the plot entry is written directly into
`element_states`, as the GUI does, since `add_slot` does not create it), with
its matrix constructed. -/
def pPlotC : Pipeline :=
  construct_matrix
    { (add_plot
        ((add_slot foAB (add_filter initPipeline filtF1 none)
          slotS1 none).1) plotG1 none) with
      element_states := [("slot-1", [("filt-1", true), ("plot-1", true)])] }

/-- C9 counterexample: with one filter, the matrix row has two cells (the
raw view and one hierarchy child, the terminal column), but the view
returned by `get_plot_datasets` is the one at `filt_index = num_filters - 1
= 0`: a chain of a single cell whose head is the BASE dataset — chain depth
0, not `num_filters = 1`.  The terminal column (row index `num_filters`) is
never returned, contradicting the claimed "terminal view with chain depth
equal to the number of filters". -/
theorem get_plot_datasets_not_terminal :
    (get_plot_datasets pPlotC "plot-1").2.length = 1 ∧
    num_filters pPlotC = 1 ∧
    (pPlotC.matrix.getD 0 []).length = 2 ∧
    ((get_plot_datasets pPlotC "plot-1").2.getD 0 default).1.chain.length
      = 1 ∧
    (((get_plot_datasets pPlotC "plot-1").2.getD 0
      default).1.chain.length - 1) ≠ num_filters pPlotC ∧
    (rowHeadId ((get_plot_datasets pPlotC "plot-1").2.getD 0
      default).1.chain) = some "slot-1" := by
  decide

theorem obsEq_refl (p : Pipeline) : ObsEq p p :=
  ⟨rfl, rfl, rfl, rfl, rfl, rfl, rfl, rfl, rfl, rfl, rfl⟩

theorem obsEq_trans (p1 p2 p3 : Pipeline) (h1 : ObsEq p1 p2)
    (h2 : ObsEq p2 p3) : ObsEq p1 p3 := by
  obtain ⟨a1, a2, a3, a4, a5, a6, a7, a8, a9, a10, a11⟩ := h1
  obtain ⟨b1, b2, b3, b4, b5, b6, b7, b8, b9, b10, b11⟩ := h2
  exact ⟨a1.trans b1, a2.trans b2, a3.trans b3, a4.trans b4, a5.trans b5,
    a6.trans b6, a7.trans b7, a8.trans b8, a9.trans b9, a10.trans b10,
    a11.trans b11⟩

theorem map_rowKinds_set_getD (m : List (List Cell)) (si : Nat)
    (r : List Cell) (h : rowKinds r = rowKinds (m.getD si [])) :
    (m.set si r).map rowKinds = m.map rowKinds := by
  apply List.ext_getElem
  · simp
  · intro j h1 h2
    rw [List.getElem_map, List.getElem_map]
    have hjl : j < m.length := by simpa using h2
    rw [List.getElem_set]
    by_cases hij : si = j
    · rw [if_pos hij, h]
      have hgd : m.getD si [] = m[j] := by
        rw [List.getD_eq_getElem?_getD, hij, List.getElem?_eq_getElem hjl]
        rfl
      rw [hgd]
    · rw [if_neg hij]

/-- `get_dataset` only rewrites filtering configuration in place: the
resulting pipeline is observationally equal to the one it started from
(given a current cache). -/
theorem get_dataset_obsEq_self (p : Pipeline) (si fi : Nat) (ap : Bool)
    (hcur : p.matrix_hash = some (slot_ids p, filter_ids p)) :
    ObsEq (get_dataset p si fi ap).1 p := by
  unfold get_dataset
  rw [construct_matrix_noop p hcur]
  dsimp only
  refine ⟨rfl, rfl, rfl, rfl, rfl, rfl, rfl, rfl, rfl, rfl, ?_⟩
  apply map_rowKinds_set_getD
  rw [configureRow_kinds]

/-- Unrolling of the `get_plot_datasets` fold: threading the pipeline
through the `get_dataset` calls does not change which views come out,
because each call only rewrites filtering configuration (kinds preserved)
and never touches the fields the condition reads. -/
theorem gpd_go (p : Pipeline) (pid : String)
    (hcurp : p.matrix_hash = some (slot_ids p, filter_ids p)) :
    ∀ (L : List Nat) (q : Pipeline) (out : List (View × Slot)),
      ObsEq q p → q.matrix_hash = some (slot_ids q, filter_ids q) →
      (L.foldl (fun acc si =>
        if esLookup acc.1.element_states
              ((acc.1.slots.getD si default).identifier) pid = some true ∧
            (acc.1.slots.getD si default).identifier ∈ acc.1.slots_used then
          ((get_dataset acc.1 si (num_filters p - 1) true).1,
            acc.2 ++ [((get_dataset acc.1 si (num_filters p - 1) true).2,
              acc.1.slots.getD si default)])
        else acc) (q, out)).2 =
      out ++ (L.filter (fun si =>
          decide (esLookup p.element_states
              ((p.slots.getD si default).identifier) pid = some true ∧
            (p.slots.getD si default).identifier ∈ p.slots_used))).map
        (fun si => ((get_dataset p si (num_filters p - 1) true).2,
          p.slots.getD si default)) := by
  intro L
  induction L with
  | nil =>
      intro q out h hq
      simp
  | cons si rest ih =>
      intro q out h hq
      obtain ⟨hf, hu, hp, hsl, hsu, hes, hh, hms, hmf, hos, hm⟩ := h
      rw [List.foldl_cons, List.filter_cons]
      dsimp only
      rw [hsl, hes, hsu]
      by_cases hcond : esLookup p.element_states
          ((p.slots.getD si default).identifier) pid = some true ∧
          (p.slots.getD si default).identifier ∈ p.slots_used
      · rw [if_pos hcond, if_pos (decide_eq_true hcond)]
        have hobs : ObsEq q p :=
          ⟨hf, hu, hp, hsl, hsu, hes, hh, hms, hmf, hos, hm⟩
        obtain ⟨hv, hobs2, hcur2⟩ :=
          get_dataset_obsEq q p si (num_filters p - 1) true hobs hq
        rw [hv]
        have hobs3 : ObsEq (get_dataset q si (num_filters p - 1) true).1 p :=
          obsEq_trans _ _ _ hobs2
            (get_dataset_obsEq_self p si (num_filters p - 1) true hcurp)
        rw [ih _ _ hobs3 hcur2, List.map_cons]
        exact (List.append_cons out _ _).symm
      · rw [if_neg hcond,
          if_neg (by simpa using hcond)]
        have hobs : ObsEq q p :=
          ⟨hf, hu, hp, hsl, hsu, hes, hh, hms, hmf, hos, hm⟩
        exact ih q out hobs hq

/-- C9 amended: `get_plot_datasets` returns, in slot order, exactly one
(view, slot-state) pair for each slot whose enablement entry for the plot
exists and is true and whose identifier is in the used-slots list; the view
is the one `get_dataset` produces at `filt_index = num_filters - 1` with
`apply_filter=True` — the column one below the terminal column, on whose
chain every used and enabled filter stage `0..num_filters-1` is configured —
not the terminal column itself.  Hypothesis: the cached fingerprint is
current (`get_plot_datasets` is a read path; `get_dataset` establishes this
on its first call). -/
theorem get_plot_datasets_selection (p : Pipeline) (pid : String)
    (hcur : p.matrix_hash = some (slot_ids p, filter_ids p)) :
    (get_plot_datasets p pid).2 =
      ((List.range p.slots.length).filter (fun si =>
        decide (esLookup p.element_states
            ((p.slots.getD si default).identifier) pid = some true ∧
          (p.slots.getD si default).identifier ∈ p.slots_used))).map
        (fun si => ((get_dataset p si (num_filters p - 1) true).2,
          p.slots.getD si default)) := by
  have h := gpd_go p pid hcur (List.range p.slots.length) p []
    (obsEq_refl p) hcur
  rw [List.nil_append] at h
  exact h

theorem get_plot_datasets_selection_witness :
    pPlotC.matrix_hash = some (slot_ids pPlotC, filter_ids pPlotC) ∧
    (get_plot_datasets pPlotC "plot-1").2 =
      ((List.range pPlotC.slots.length).filter (fun si =>
        decide (esLookup pPlotC.element_states
            ((pPlotC.slots.getD si default).identifier) "plot-1" =
              some true ∧
          (pPlotC.slots.getD si default).identifier ∈
            pPlotC.slots_used))).map
        (fun si => ((get_dataset pPlotC si (num_filters pPlotC - 1) true).2,
          pPlotC.slots.getD si default)) :=
  ⟨by decide, get_plot_datasets_selection pPlotC "plot-1" (by decide)⟩

end SO2
